import Mathlib

/-!
Shallow embedding of the Tablerizer PostgreSQL export tool.

The embedding covers `src/generators.ts` (SQL generation), `src/config.ts`
(configuration resolution and validation) and the file-path bookkeeping of
`Tablerizer.export` in `src/index.ts`.

Modelling conventions, used uniformly below:
* JavaScript strings are Lean `String`s; `s.includes(c)` for a one-character
  needle is membership of that character in `s.data`.
* Nullable / optional values (`x?: T`, `T | null`) are `Option T`; JavaScript
  truthiness tests on them are made explicit (`strTruthy`, `natTruthy`):
  `undefined`, `null`, `""` and `0` are falsy.
* A JS `Map` (insertion-ordered) is an association list, a JS `Set` an
  insertion-order deduplicated list (`jsSet`).
* `Array.prototype.sort`, which is stable, is `List.mergeSort`; the
  `localeCompare` comparator is modelled as lexicographic order on strings.
* `new Date().toISOString()` is an explicit `now : String` argument.
* The regex rewrite `applyRoleMappings` is represented by the content
  transformation it performs, passed as an explicit `Option (String → String)`
  (`none` models an absent or empty `role_mappings` object); its internal
  regular-expression machinery is not modelled.
* Database query results are explicit inputs; file-system effects are dropped.
-/

namespace Tablerizer

/-- The single-quote character (code point 39). -/
def singleQuote : Char := Char.ofNat 39

/-- JS truthiness of an optional string: `undefined`, `null` and `""` are falsy. -/
def strTruthy : Option String → Bool
  | none => false
  | some s => s ≠ ""

/-- JS truthiness of an optional number: absent values and `0` are falsy. -/
def natTruthy : Option Nat → Bool
  | none => false
  | some n => n != 0

/-- JS template interpolation of a nullable string: SQL `NULL` prints as `"null"`. -/
def orNull : Option String → String
  | none => "null"
  | some s => s

/-- Whitespace characters recognised by `String.prototype.trim`. -/
def isJsWhitespace (c : Char) : Bool :=
  c = ' ' ∨ c = '\t' ∨ c = '\n' ∨ c = '\r' ∨ c.toNat = 11 ∨ c.toNat = 12 ∨
  c.toNat = 0xA0 ∨ c.toNat = 0x1680 ∨ (0x2000 ≤ c.toNat ∧ c.toNat ≤ 0x200A) ∨
  c.toNat = 0x2028 ∨ c.toNat = 0x2029 ∨ c.toNat = 0x202F ∨ c.toNat = 0x205F ∨
  c.toNat = 0x3000 ∨ c.toNat = 0xFEFF

/-- JS `String.prototype.trim`. -/
def jsTrim (s : String) : String :=
  String.mk (((s.data.dropWhile isJsWhitespace).reverse.dropWhile isJsWhitespace).reverse)

/-- Helper for `splitChar`: accumulates the current field (reversed). -/
def splitCharAux (sep : Char) : List Char → List Char → List (List Char)
  | [], acc => [acc.reverse]
  | c :: cs, acc =>
    if c = sep then acc.reverse :: splitCharAux sep cs []
    else splitCharAux sep cs (c :: acc)

/-- JS `s.split(sep)` for a one-character separator `sep`. -/
def splitChar (sep : Char) (s : String) : List String :=
  (splitCharAux sep s.data []).map String.mk

/-- Insertion-order deduplication: the element list of a JS `Set` built from `l`. -/
def jsSet {α : Type} [DecidableEq α] (l : List α) : List α :=
  l.foldl (fun acc a => if a ∈ acc then acc else acc ++ [a]) []

/-- Lexicographic comparison of character lists (the order in which JS string
comparison and `localeCompare` are modelled here). -/
def charListLe : List Char → List Char → Bool
  | [], _ => true
  | _ :: _, [] => false
  | a :: as, b :: bs => if a < b then true else if b < a then false else charListLe as bs

/-- String comparison used for all sorts below. -/
def strLeB (a b : String) : Bool := charListLe a.data b.data

/-! ## Data rows (`src/database.ts` / `src/generators.ts` interfaces) -/

/-- One row of `TableData.rbac.table_grants`. -/
structure GrantRow where
  grantor : String
  grantee : String
  privilege : String
  is_grantable : Bool
deriving DecidableEq, Repr

/-- One row of `TableData.rbac.column_grants`. -/
structure ColumnGrantRow where
  column_name : String
  grantor : String
  grantee : String
  privilege : String
  is_grantable : Bool
deriving DecidableEq, Repr

/-- One row of `TableData.triggers`. -/
structure TriggerRow where
  trigger_name : String
  action_timing : String
  event_manipulation : String
  action_orientation : String
  action_statement : String
  action_condition : Option String
  action_order : Nat
deriving DecidableEq, Repr

/-- One entry of `TableData.rls.policies`. -/
structure Policy where
  policy : String
  cmd : String
  roles : Option (List String)
  permissive : String
  using_expr : Option String
  with_check : Option String
deriving DecidableEq, Repr

/-- Structure `ColumnInfo` from `src/database.ts` (documentation section input). -/
structure ColumnInfo where
  column_name : String
  data_type : String
  is_nullable : String
  column_default : Option String
  character_maximum_length : Option Nat
  numeric_precision : Option Nat
  numeric_scale : Option Nat
  comment : Option String
deriving DecidableEq, Repr

/-- Structure `ConstraintInfo` from `src/database.ts` (documentation section input). -/
structure ConstraintInfo where
  constraint_name : String
  constraint_type : String
  table_name : String
  column_name : Option String
  foreign_table_name : Option String
  foreign_column_name : Option String
  check_clause : Option String
deriving DecidableEq, Repr

/-- Field `TableData.rls`. -/
structure RlsData where
  enabled : Bool
  force : Bool
  policies : List Policy
deriving DecidableEq, Repr

/-- Field `TableData.rbac`. -/
structure RbacData where
  table_grants : List GrantRow
  column_grants : List ColumnGrantRow
deriving DecidableEq, Repr

/-- Structure `TableData` from `src/generators.ts`.  The optional `columns?` /
`constraints?` arrays are lists (absent = empty, which the generators treat
identically). -/
structure TableData where
  table : String
  owner : String
  rls : RlsData
  rbac : RbacData
  triggers : List TriggerRow
  columns : List ColumnInfo
  constraints : List ConstraintInfo
  comment : Option String
deriving DecidableEq, Repr

/-- Structure `FunctionInfo` from `src/database.ts`. -/
structure FunctionInfo where
  schema_name : String
  function_name : String
  function_signature : String
  function_definition : String
  return_type : String
  language : String
  volatility : String
  security_definer : Bool
  function_arguments : String
  function_type : String
  is_security_definer : Bool
  comment : Option String
deriving DecidableEq, Repr

/-! ## Identifier escaping

Every generator escapes an identifier the same way:
`x.includes(" ") || x.includes("-") ? `"${x}"` : x`. -/

/-- Wrap an identifier in double quotes when it contains a space or a hyphen. -/
def escapeIdent (s : String) : String :=
  if ' ' ∈ s.data ∨ '-' ∈ s.data then "\"" ++ s ++ "\"" else s

/-! ## `generateGrantsSQL` -/

/-- The single `GRANT` statement emitted for one table-grant row. -/
def grantStmt (schema tableName : String) (g : GrantRow) : String :=
  "GRANT " ++ g.privilege ++ " ON TABLE " ++ schema ++ "." ++ tableName ++
    " TO " ++ escapeIdent g.grantee ++
    (if g.is_grantable then " WITH GRANT OPTION" else "") ++ ";"

/-- Function `generateGrantsSQL` emits one statement per row, in order, without any
deduplication. -/
def generateGrantsSQL (schema tableName : String) (grants : List GrantRow) :
    List String :=
  grants.map (grantStmt schema tableName)

/-! ## `generateColumnGrantsSQL` -/

/-- The `Map` key `${grantee}:${privilege}:${is_grantable}`. -/
def colGrantKey (g : ColumnGrantRow) : String :=
  g.grantee ++ ":" ++ g.privilege ++ ":" ++ (if g.is_grantable then "true" else "false")

/-- Add one row to the `grantsByGranteeAndPrivilege` map (`Map<string, Set<string>>`,
insertion-ordered, the `Set` deduplicating column names). -/
def insertColGrant (m : List (String × List String)) (key col : String) :
    List (String × List String) :=
  match m with
  | [] => [(key, [col])]
  | (k, cols) :: rest =>
    if k = key then (k, if col ∈ cols then cols else cols ++ [col]) :: rest
    else (k, cols) :: insertColGrant rest key col

/-- The grouping map built from the column-grant rows. -/
def colGrantGroups (rows : List ColumnGrantRow) : List (String × List String) :=
  rows.foldl (fun m g => insertColGrant m (colGrantKey g) g.column_name) []

/-- Emit the statement for one map entry: the key is split on `":"` again and
the first three fields are destructured (`[grantee, privilege, isGrantableStr]`). -/
def colGrantStmt (schema tableName : String) (entry : String × List String) : String :=
  let parts := splitChar ':' entry.1
  let grantee := (parts.get? 0).getD ""
  let privilege := (parts.get? 1).getD ""
  let isGrantableStr := (parts.get? 2).getD ""
  let isGrantable : Bool := isGrantableStr = "true"
  "GRANT " ++ privilege ++ " (" ++
    String.intercalate ", " (entry.2.map escapeIdent) ++ ") ON TABLE " ++
    schema ++ "." ++ tableName ++ " TO " ++ escapeIdent grantee ++
    (if isGrantable then " WITH GRANT OPTION" else "") ++ ";"

/-- Function `generateColumnGrantsSQL`: group rows by `grantee:privilege:is_grantable`,
then emit one `GRANT` per group in key insertion order. -/
def generateColumnGrantsSQL (schema tableName : String)
    (rows : List ColumnGrantRow) : List String :=
  (colGrantGroups rows).map (colGrantStmt schema tableName)

/-! ## `generateTriggersSQL` -/

/-- One value of the `triggerGroups` map. -/
structure TriggerGroup where
  trigger_name : String
  action_timing : String
  events : List String
  action_orientation : String
  action_statement : String
  action_condition : Option String
  action_order : Nat
deriving DecidableEq, Repr

/-- The grouping key
`${name}|${timing}|${orientation}|${statement}|${condition || ""}`. -/
def triggerKey (t : TriggerRow) : String :=
  t.trigger_name ++ "|" ++ t.action_timing ++ "|" ++ t.action_orientation ++ "|" ++
    t.action_statement ++ "|" ++ t.action_condition.getD ""

/-- The group created for the first row carrying a given key. -/
def newTriggerGroup (t : TriggerRow) : TriggerGroup :=
  { trigger_name := t.trigger_name
    action_timing := t.action_timing
    events := [t.event_manipulation]
    action_orientation := t.action_orientation
    action_statement := t.action_statement
    action_condition := t.action_condition
    action_order := t.action_order }

/-- Add one row to the insertion-ordered `triggerGroups` map. -/
def insertTrigger (m : List (String × TriggerGroup)) (t : TriggerRow) :
    List (String × TriggerGroup) :=
  match m with
  | [] => [(triggerKey t, newTriggerGroup t)]
  | (k, g) :: rest =>
    if k = triggerKey t then
      (k, { g with events := g.events ++ [t.event_manipulation] }) :: rest
    else (k, g) :: insertTrigger rest t

/-- The `triggerGroups` map built from the trigger rows. -/
def triggerGroupsOf (rows : List TriggerRow) : List (String × TriggerGroup) :=
  rows.foldl insertTrigger []

/-- Model of `events.sort()`: default JS sort, lexicographic on strings.  JS sorts are
stable and a stable sort's output is uniquely determined by the comparator, so
any stable sort models it; `List.insertionSort` is stable and structurally
recursive (hence computable by `decide`). -/
def sortEvents (es : List String) : List String :=
  List.insertionSort (fun a b => strLeB a b = true) es

/-- The `CREATE TRIGGER` statement for one group. -/
def renderTriggerGroup (schema tableName : String) (g : TriggerGroup) : String :=
  "CREATE TRIGGER " ++ escapeIdent g.trigger_name ++
    " " ++ g.action_timing ++ " " ++ String.intercalate " OR " (sortEvents g.events) ++
    " ON " ++ schema ++ "." ++ tableName ++
    " FOR EACH " ++ g.action_orientation ++
    (if strTruthy g.action_condition then
      " WHEN (" ++ g.action_condition.getD "" ++ ")"
    else "") ++
    " " ++ g.action_statement ++ ";"

/-- Sort the groups alphabetically by trigger name (`localeCompare`, modelled
as lexicographic order; the JS sort is stable, as is insertion sort). -/
def sortTriggerGroups (gs : List TriggerGroup) : List TriggerGroup :=
  List.insertionSort (fun a b => strLeB a.trigger_name b.trigger_name = true) gs

/-- Function `generateTriggersSQL`: group, sort by trigger name, render. -/
def generateTriggersSQL (schema tableName : String) (rows : List TriggerRow) :
    List String :=
  (sortTriggerGroups ((triggerGroupsOf rows).map Prod.snd)).map
    (renderTriggerGroup schema tableName)

/-! ## `generatePoliciesSQL` -/

/-- Statement `ALTER TABLE ... ENABLE ROW LEVEL SECURITY;`. -/
def enableRlsStmt (schema tableName : String) : String :=
  ("ALTER TABLE " ++ schema ++ "." ++ tableName) ++ " ENABLE ROW LEVEL SECURITY;"

/-- Statement `ALTER TABLE ... FORCE ROW LEVEL SECURITY;`. -/
def forceRlsStmt (schema tableName : String) : String :=
  ("ALTER TABLE " ++ schema ++ "." ++ tableName) ++ " FORCE ROW LEVEL SECURITY;"

/-- The `CREATE POLICY` statement for one policy.  Note the JS truthiness
tests: an empty `using` / `with_check` expression suppresses the clause. -/
def renderPolicy (schema tableName : String) (p : Policy) : String :=
  "CREATE POLICY " ++ escapeIdent p.policy ++ " ON " ++ schema ++ "." ++ tableName ++
    (if p.permissive = "RESTRICTIVE" then " AS RESTRICTIVE" else "") ++
    " FOR " ++ p.cmd ++
    (match p.roles with
     | some roles =>
       if roles.length > 0 then
         " TO " ++ String.intercalate ", " (roles.map escapeIdent)
       else ""
     | none => "") ++
    (if strTruthy p.using_expr then " USING (" ++ p.using_expr.getD "" ++ ")" else "") ++
    (if strTruthy p.with_check then
      " WITH CHECK (" ++ p.with_check.getD "" ++ ")"
    else "") ++
    ";"

/-- Model of `policies.sort((a, b) => a.policy.localeCompare(b.policy))`
(`localeCompare` modelled as lexicographic order; stable sort). -/
def sortPolicies (ps : List Policy) : List Policy :=
  List.insertionSort (fun a b => strLeB a.policy b.policy = true) ps

/-- Function `generatePoliciesSQL`. -/
def generatePoliciesSQL (schema tableName : String) (rlsEnabled rlsForce : Bool)
    (policies : List Policy) : List String :=
  (if rlsEnabled then [enableRlsStmt schema tableName] else []) ++
  (if rlsForce then [forceRlsStmt schema tableName] else []) ++
  (sortPolicies policies).map (renderPolicy schema tableName)

/-! ## `generateSchemaDocumentation` -/

/-- Match of the regex `/^\d+_\d+_\d+_.+/` used to drop system-generated
check-constraint names: one or more digits, `_`, digits, `_`, digits, `_`,
then at least one character. -/
def isSystemCheckName (s : String) : Bool :=
  match (splitChar '_' s) with
  | d₁ :: d₂ :: d₃ :: rest =>
    !d₁.isEmpty && d₁.data.all Char.isDigit &&
    !d₂.isEmpty && d₂.data.all Char.isDigit &&
    !d₃.isEmpty && d₃.data.all Char.isDigit &&
    !(String.intercalate "_" rest).isEmpty
  | _ => false

/-- The documentation line for one column. -/
def columnDocLine (col : ColumnInfo) : String :=
  "  • " ++ col.column_name ++ ": " ++ col.data_type ++
    (if natTruthy col.character_maximum_length then
      "(" ++ toString (col.character_maximum_length.getD 0) ++ ")"
    else if natTruthy col.numeric_precision && !(col.numeric_scale = none : Bool) then
      "(" ++ toString (col.numeric_precision.getD 0) ++ "," ++
        toString (col.numeric_scale.getD 0) ++ ")"
    else if natTruthy col.numeric_precision then
      "(" ++ toString (col.numeric_precision.getD 0) ++ ")"
    else "") ++
    (if col.is_nullable = "NO" then " NOT NULL" else "") ++
    (if strTruthy col.column_default then " DEFAULT " ++ col.column_default.getD "" else "") ++
    (if strTruthy col.comment then " -- " ++ col.comment.getD "" else "")

/-- The constraint documentation lines (primary keys, foreign keys, unique and
user check constraints, in this order). -/
def constraintDocLines (constraints : List ConstraintInfo) : List String :=
  let primaryKeys := constraints.filter (fun c => c.constraint_type = "PRIMARY KEY")
  let foreignKeys := constraints.filter (fun c => c.constraint_type = "FOREIGN KEY")
  let uniqueKeys := constraints.filter (fun c => c.constraint_type = "UNIQUE")
  let checkConstraints := constraints.filter (fun c => c.constraint_type = "CHECK")
  let userConstraints := checkConstraints.filter (fun c => !isSystemCheckName c.constraint_name)
  (if primaryKeys.length > 0 then
    ["  PRIMARY KEY:"] ++
      primaryKeys.map (fun pk => "  • " ++ pk.constraint_name ++ ": " ++ orNull pk.column_name) ++
      [""]
  else []) ++
  (if foreignKeys.length > 0 then
    ["  FOREIGN KEYS:"] ++
      foreignKeys.map (fun fk =>
        "  • " ++ fk.constraint_name ++ ": " ++ orNull fk.column_name ++ " → " ++
          orNull fk.foreign_table_name ++ "." ++ orNull fk.foreign_column_name) ++
      [""]
  else []) ++
  (if uniqueKeys.length > 0 then
    ["  UNIQUE CONSTRAINTS:"] ++
      uniqueKeys.map (fun uk => "  • " ++ uk.constraint_name ++ ": " ++ orNull uk.column_name) ++
      [""]
  else []) ++
  (if userConstraints.length > 0 then
    ["  CHECK CONSTRAINTS:"] ++
      userConstraints.map (fun cc => "  • " ++ cc.constraint_name ++ ": " ++ orNull cc.check_clause) ++
      [""]
  else [])

/-- Function `generateSchemaDocumentation`: the block comment appended to each table file. -/
def generateSchemaDocumentation (schema tableName : String)
    (columns : List ColumnInfo) (constraints : List ConstraintInfo)
    (tableComment : Option String) : List String :=
  ["", "/*", "  TABLE SCHEMA DOCUMENTATION: " ++ schema ++ "." ++ tableName,
   "  " ++ String.mk (List.replicate 60 '=')] ++
  (if strTruthy tableComment then ["  Table Comment: " ++ tableComment.getD "", ""] else []) ++
  (if columns.length > 0 then
    ["  COLUMNS:", "  --------"] ++ columns.map columnDocLine ++ [""]
  else []) ++
  (if constraints.length > 0 then constraintDocLines constraints else []) ++
  ["*/", ""]

/-! ## `generateTableSQL` -/

/-- Statement `DROP POLICY IF EXISTS ...`, a cleanup statement. -/
def dropPolicyStmt (schema tableName policyName : String) : String :=
  ("DROP POLICY IF EXISTS " ++ escapeIdent policyName) ++
    (" ON " ++ schema ++ "." ++ tableName ++ ";")

/-- Statement `DROP TRIGGER IF EXISTS ...`, a cleanup statement. -/
def dropTriggerStmt (schema tableName triggerName : String) : String :=
  ("DROP TRIGGER IF EXISTS " ++ escapeIdent triggerName) ++
    (" ON " ++ schema ++ "." ++ tableName ++ ";")

/-- Statement `REVOKE ALL ON TABLE ... FROM ...;`, a cleanup statement. -/
def revokeStmt (schema tableName grantee : String) : String :=
  ("REVOKE ALL ON TABLE " ++ schema ++ "." ++ tableName ++ " FROM ") ++
    (escapeIdent grantee ++ ";")

/-- Statement `ALTER TABLE ... DISABLE ROW LEVEL SECURITY;`, a cleanup statement. -/
def disableRlsStmt (schema tableName : String) : String :=
  ("ALTER TABLE " ++ schema ++ "." ++ tableName) ++ " DISABLE ROW LEVEL SECURITY;"

/-- The deduplicated grantees of the cleanup section:
`new Set([...tableGrantees, ...columnGrantees])`. -/
def allGrantees (td : TableData) : List String :=
  jsSet (jsSet (td.rbac.table_grants.map GrantRow.grantee) ++
    jsSet (td.rbac.column_grants.map ColumnGrantRow.grantee))

/-- Header comment lines of a table file. -/
def tableHeader (schema tableName : String) (includeDate : Bool) (now : String) :
    List String :=
  ["-- ========================================",
   "-- Table: " ++ schema ++ "." ++ tableName,
   "-- Generated by Tablerizer 🎲"] ++
  (if includeDate then ["-- Date: " ++ now] else []) ++
  ["-- ========================================", ""]

/-- Cleanup section of a table file (drop policies and triggers, revoke
grants, disable RLS). -/
def tableCleanup (schema : String) (td : TableData) : List String :=
  ["-- 🧹 Cleanup Section (for idempotency)",
   "-- =======================================", ""] ++
  (if td.rls.policies.length > 0 then
    td.rls.policies.map (fun p => dropPolicyStmt schema td.table p.policy) ++ [""]
  else []) ++
  (if td.triggers.length > 0 then
    (jsSet (td.triggers.map TriggerRow.trigger_name)).map
      (fun n => dropTriggerStmt schema td.table n) ++ [""]
  else []) ++
  (if td.rbac.table_grants.length > 0 ∨ td.rbac.column_grants.length > 0 then
    ["-- Revoke existing grants"] ++
      (allGrantees td).map (fun g => revokeStmt schema td.table g) ++ [""]
  else []) ++
  (if td.rls.enabled then [disableRlsStmt schema td.table, ""] else [])

/-- Recreation section of a table file (grants, policies, triggers,
documentation). -/
def tableRecreation (schema : String) (td : TableData) : List String :=
  ["-- ⚡ Recreation Section", "-- ====================", ""] ++
  (if td.rbac.table_grants.length > 0 then
    ["-- Table-level grants"] ++
      generateGrantsSQL schema td.table td.rbac.table_grants ++ [""]
  else []) ++
  (if td.rbac.column_grants.length > 0 then
    ["-- Column-level grants"] ++
      generateColumnGrantsSQL schema td.table td.rbac.column_grants ++ [""]
  else []) ++
  (if td.rls.enabled ∨ td.rls.policies.length > 0 then
    ["-- Row Level Security policies"] ++
      generatePoliciesSQL schema td.table td.rls.enabled td.rls.force td.rls.policies ++ [""]
  else []) ++
  (if td.triggers.length > 0 then
    ["-- Triggers"] ++ generateTriggersSQL schema td.table td.triggers ++ [""]
  else []) ++
  generateSchemaDocumentation schema td.table td.columns td.constraints td.comment

/-- All lines of a table file, in emission order. -/
def tableSections (schema : String) (td : TableData) (includeDate : Bool)
    (now : String) : List String :=
  tableHeader schema td.table includeDate now ++ tableCleanup schema td ++
    tableRecreation schema td

/-- Function `generateTableSQL`: join the sections and apply the role mappings, when
any were supplied. -/
def generateTableSQL (schema : String) (td : TableData)
    (applyMappings : Option (String → String)) (includeDate : Bool)
    (now : String) : String :=
  let content := String.intercalate "\n" (tableSections schema td includeDate now)
  match applyMappings with
  | some f => f content
  | none => content

/-! ## `generateFunctionSQL` -/

/-- Statement `GRANT EXECUTE` for one role. -/
def grantExecuteStmt (func : FunctionInfo) (role : String) : String :=
  "GRANT EXECUTE ON FUNCTION " ++ func.schema_name ++ "." ++ func.function_name ++
    "(" ++ func.function_arguments ++ ") TO " ++ escapeIdent role ++ ";"

/-- All lines of a function file, in emission order.  `roles` is the optional
role filter of the configuration. -/
def functionLines (func : FunctionInfo) (roles : Option (List String))
    (includeDate : Bool) (now : String) : List String :=
  ["-- ========================================",
   "-- Function: " ++ func.schema_name ++ "." ++ func.function_name,
   "-- Generated by Tablerizer 🎲"] ++
  (if includeDate then ["-- Date: " ++ now] else []) ++
  ["-- ========================================",
   "-- Type: " ++ func.function_type,
   "-- Language: " ++ func.language] ++
  (if strTruthy func.comment then ["-- Comment: " ++ func.comment.getD ""] else []) ++
  (match roles with
   | some rs =>
     if rs.length > 0 then ["-- Grants for roles: " ++ String.intercalate ", " rs] else []
   | none => []) ++
  [""] ++
  [func.function_definition] ++
  (if strTruthy func.comment then
    ["",
     "COMMENT ON FUNCTION " ++ func.schema_name ++ "." ++ func.function_name ++
       "(" ++ func.function_arguments ++ ") IS " ++
       (if singleQuote ∈ (func.comment.getD "").data then
         "$$" ++ func.comment.getD "" ++ "$$"
       else
         String.singleton singleQuote ++ func.comment.getD "" ++ String.singleton singleQuote) ++
       ";"]
  else []) ++
  (match roles with
   | some rs =>
     if rs.length > 0 then
       ["", "-- Grant execution permissions"] ++ rs.map (grantExecuteStmt func)
     else []
   | none => [])

/-- Function `generateFunctionSQL`. -/
def generateFunctionSQL (func : FunctionInfo) (roles : Option (List String))
    (applyMappings : Option (String → String)) (includeDate : Bool)
    (now : String) : String :=
  let content := String.intercalate "\n" (functionLines func roles includeDate now)
  match applyMappings with
  | some f => f content
  | none => content

/-! ## Configuration (`src/config.ts`)

`resolveConfig(cliArgs, configPath)` loads the configuration file through the
file system; the embedding takes the parsed file (or `none` when no file was
provided or found) as an explicit argument, together with the four environment
variables the resolver reads. -/

/-- Union type `ExportScope`. -/
inductive ExportScopeItem
  | tables
  | functions
  | views
  | materializedViews
  | all
deriving DecidableEq, Repr

/-- Value of type `ExportScope | ExportScope[]`. -/
inductive ScopeValue
  | single : ExportScopeItem → ScopeValue
  | multiple : List ExportScopeItem → ScopeValue
deriving DecidableEq, Repr

/-- The parsed configuration file (`Config` interface; every field optional). -/
structure FileConfig where
  schemas : Option (List String)
  out : Option String
  roles : Option (List String)
  database_url : Option String
  role_mappings : Option (List (String × String))
  scope : Option ScopeValue
  include_date : Option Bool
deriving DecidableEq, Repr

/-- The empty configuration used when no config file exists (`let config = {}`). -/
def emptyFileConfig : FileConfig :=
  { schemas := none, out := none, roles := none, database_url := none,
    role_mappings := none, scope := none, include_date := none }

/-- Parsed CLI arguments (`Partial<CliArgs>`). -/
structure CliArgs where
  schemas : Option (List String)
  out : Option String
  roles : Option (List String)
  database_url : Option String
  role_mappings : Option (List (String × String))
  scope : Option ScopeValue
  include_date : Option Bool
deriving DecidableEq, Repr

/-- A CLI invocation passing no arguments. -/
def emptyCliArgs : CliArgs :=
  { schemas := none, out := none, roles := none, database_url := none,
    role_mappings := none, scope := none, include_date := none }

/-- The environment variables read by `resolveConfig`. -/
structure Env where
  SCHEMAS : Option String
  OUTPUT_DIR : Option String
  ROLES : Option String
  DATABASE_URL : Option String
deriving DecidableEq, Repr

/-- An environment with none of the four variables set. -/
def emptyEnv : Env :=
  { SCHEMAS := none, OUTPUT_DIR := none, ROLES := none, DATABASE_URL := none }

/-- Structure `TablerizerOptions` as produced by `resolveConfig` (the resolver always
fills `schemas`, `role_mappings` and `scope`). -/
structure TablerizerOptions where
  schemas : List String
  out : Option String
  roles : Option (List String)
  database_url : Option String
  role_mappings : List (String × String)
  scope : ScopeValue
  include_date : Option Bool
deriving DecidableEq, Repr

/-- JS object-spread update of one key of a string record (insertion-ordered). -/
def recordSet (m : List (String × String)) (k v : String) : List (String × String) :=
  if m.any (fun e => e.1 = k) then
    m.map (fun e => if e.1 = k then (k, v) else e)
  else m ++ [(k, v)]

/-- Spread merge (JS `...a` then `...b`) of two string records. -/
def mergeRecords (a b : List (String × String)) : List (String × String) :=
  b.foldl (fun m e => recordSet m e.1 e.2) a

/-- Model of `value.split(",").map((s) => s.trim())`. -/
def splitTrim (s : String) : List String :=
  (splitChar ',' s).map jsTrim

/-- Function `resolveConfig` (src/config.ts): start from the config-file values, then
let environment variables fill still-unset fields, then apply CLI overrides.
Note that the environment-variable branches test the *already resolved* value
(`resolved.schemas.length === 0`, `!resolved.out`, `!resolved.roles`,
`!resolved.database_url`), so a config-file value shadows the environment. -/
def resolveConfig (cliArgs : CliArgs) (fileConfig : Option FileConfig)
    (env : Env) : TablerizerOptions :=
  let config := fileConfig.getD emptyFileConfig
  let r0 : TablerizerOptions :=
    { schemas := config.schemas.getD []
      out := config.out
      roles := config.roles
      database_url := config.database_url
      role_mappings := config.role_mappings.getD []
      scope := config.scope.getD (ScopeValue.single ExportScopeItem.all)
      include_date := config.include_date }
  let r1 := if strTruthy env.SCHEMAS && r0.schemas.length == 0 then
      { r0 with schemas := splitTrim (env.SCHEMAS.getD "") }
    else r0
  let r2 := if strTruthy env.OUTPUT_DIR && !strTruthy r1.out then
      { r1 with out := env.OUTPUT_DIR }
    else r1
  let r3 := if strTruthy env.ROLES && r2.roles.isNone then
      { r2 with roles := some (splitTrim (env.ROLES.getD "")) }
    else r2
  let r4 := if strTruthy env.DATABASE_URL && !strTruthy r3.database_url then
      { r3 with database_url := env.DATABASE_URL }
    else r3
  let c1 := match cliArgs.schemas with
    | some ss => if ss.length > 0 then { r4 with schemas := ss } else r4
    | none => r4
  let c2 := if strTruthy cliArgs.out then { c1 with out := cliArgs.out } else c1
  let c3 := if cliArgs.roles.isSome then { c2 with roles := cliArgs.roles } else c2
  let c4 := if strTruthy cliArgs.database_url then
      { c3 with database_url := cliArgs.database_url }
    else c3
  let c5 := match cliArgs.role_mappings with
    | some rm =>
      if rm.length > 0 then
        { c4 with role_mappings := mergeRecords c4.role_mappings rm }
      else c4
    | none => c4
  let c6 := match cliArgs.scope with
    | some sc => { c5 with scope := sc }
    | none => c5
  match cliArgs.include_date with
  | some b => { c6 with include_date := some b }
  | none => c6

/-- Function `validateConfig` (src/config.ts): the thrown error becomes `Except.error`.
The loop over the schema names throws at the first name failing
`!schema || schema.trim().length === 0`. -/
def validateConfig (config : TablerizerOptions) : Except String Unit :=
  if config.schemas.length = 0 then
    Except.error "At least one schema must be specified"
  else if strTruthy config.database_url = false then
    Except.error "Database URL must be provided"
  else
    match config.schemas.find? (fun s => s = "" ∨ jsTrim s = "") with
    | some _ => Except.error "Schema names cannot be empty"
    | none => Except.ok ()

/-! ## File paths of `Tablerizer.export` (`src/index.ts`)

The export loop walks the configured schemas; for each one it writes the
table files and then the function files, recording every written file in
`files`.  The embedding keeps the queried table and function names as
explicit inputs and models `path.join` as `/`-concatenation of its segments
(exact for non-empty segments that contain no path separator and no `.` /
`..` components; the theorems about this model assume as much).  File contents
and sizes do not influence the recorded paths and are left out. -/

/-- One entry of `ExportResult.files` (path-relevant fields). -/
structure ExportFile where
  schema : String
  name : String
  isTable : Bool
  filePath : String
deriving DecidableEq, Repr

/-- The queried objects of one configured schema. -/
structure SchemaData where
  schema : String
  tables : List String
  functions : List String
deriving DecidableEq, Repr

/-- Model of `path.join(baseOutputDir, schema, "tables", name + ".sql")` as
plain `/`-concatenation.  This drops the normalization `path.join` performs, so
it agrees with the source exactly when `schema` contains no `/` and is none of
the special segments `""`, `"."`, `".."`, and `name` contains no `/` (the
trailing segment `name ++ ".sql"` then can never be a special segment); the
distinctness theorem below assumes exactly that of every joined name. -/
def tableFilePath (out schema name : String) : String :=
  out ++ "/" ++ (schema ++ "/" ++ ("tables/" ++ (name ++ ".sql")))

/-- Model of `path.join(schemaOutputDir, "functions", name + ".sql")` as plain
`/`-concatenation; like `tableFilePath` this is exact only when `schema` is a
single ordinary segment and `name` contains no `/`, as a `/` or `..` inside a
function name would otherwise be normalized away by `path.join`. -/
def funcBasePath (out schema name : String) : String :=
  out ++ "/" ++ (schema ++ "/" ++ ("functions/" ++ (name ++ ".sql")))

/-- Decimal digit character (for digits `0`–`9`). -/
def natDigitChar (n : Nat) : Char := Char.ofNat (48 + n)

/-- Decimal digits of `n`, most significant first (`fuel ≥ n + 1` suffices). -/
def natReprAux : Nat → Nat → List Char
  | 0, _ => []
  | fuel + 1, n =>
    if n < 10 then [natDigitChar n]
    else natReprAux fuel (n / 10) ++ [natDigitChar (n % 10)]

/-- The decimal string interpolated for `${counter}` (the standard decimal
representation, written out so its injectivity is provable). -/
def natToString (n : Nat) : String := String.mk (natReprAux (n + 1) n)

/-- Model of `path.join(schemaOutputDir, "functions", name + "_" + counter + ".sql")`
as plain `/`-concatenation, exact under the same separator-free conditions as
`funcBasePath`. -/
def funcSuffixPath (out schema name : String) (counter : Nat) : String :=
  out ++ "/" ++ (schema ++ "/" ++ ("functions/" ++ (name ++ "_" ++ natToString counter ++ ".sql")))

/-- The overload-handling `while` loop: starting from the unsuffixed file
name, append `_1`, `_2`, ... until the path collides with no recorded path.
The loop in the source terminates because the candidates are pairwise
distinct; here the search is bounded by `paths.length + 1` candidates, which
pigeonhole shows is always enough (`freshFuncPath_not_mem` below); the final
fallback branch is never reached. -/
def freshFuncPath (paths : List String) (out schema name : String) : String :=
  if funcBasePath out schema name ∈ paths then
    match ((List.range (paths.length + 1)).map
        (fun k => funcSuffixPath out schema name (k + 1))).find?
        (fun p => !paths.contains p) with
    | some p => p
    | none => funcBasePath out schema name
  else funcBasePath out schema name

/-- Process one schema: write all table files, then all function files. -/
def exportSchema (out : String) (files : List ExportFile) (sd : SchemaData) :
    List ExportFile :=
  let files1 := files ++ sd.tables.map (fun t =>
    { schema := sd.schema, name := t, isTable := true,
      filePath := tableFilePath out sd.schema t })
  sd.functions.foldl (fun fs fname =>
    fs ++ [{ schema := sd.schema, name := fname, isTable := false,
             filePath := freshFuncPath (fs.map ExportFile.filePath) out sd.schema fname }])
    files1

/-- The `files` list of the `ExportResult` returned by `Tablerizer.export`. -/
def exportFiles (out : String) (schemaData : List SchemaData) : List ExportFile :=
  schemaData.foldl (exportSchema out) []

/-! ## Spec-side definitions

Definitions following the wording of the specification claims, to be compared
with the code-side definitions above. -/

/-- The `(grantee, privilege, is_grantable)` combination of a column-grant
row, as the claims describe the grouping. -/
def colGrantTriple (g : ColumnGrantRow) : String × String × Bool :=
  (g.grantee, g.privilege, g.is_grantable)

/-- The column names granted under one combination, each exactly once, in
first-occurrence order. -/
def claimGroupColumns (rows : List ColumnGrantRow) (t : String × String × Bool) :
    List String :=
  jsSet ((rows.filter (fun g => colGrantTriple g = t)).map ColumnGrantRow.column_name)

/-- The column-grant statement the claim predicts for one combination. -/
def claimColGrantStmt (schema tableName : String) (rows : List ColumnGrantRow)
    (t : String × String × Bool) : String :=
  "GRANT " ++ t.2.1 ++ " (" ++
    String.intercalate ", " ((claimGroupColumns rows t).map escapeIdent) ++
    ") ON TABLE " ++ schema ++ "." ++ tableName ++ " TO " ++ escapeIdent t.1 ++
    (if t.2.2 then " WITH GRANT OPTION" else "") ++ ";"

/-- The five grouping fields of a trigger row, as the claims list them
(`action_condition` kept as written, `null` distinct from `""`). -/
def triggerFields (t : TriggerRow) :
    String × String × String × String × Option String :=
  (t.trigger_name, t.action_timing, t.action_orientation, t.action_statement,
    t.action_condition)

/-- The events of all rows carrying one grouping key, in row order. -/
def triggerEventsOf (rows : List TriggerRow) (k : String) : List String :=
  (rows.filter (fun t => triggerKey t = k)).map TriggerRow.event_manipulation

/-- No `:` (the key delimiter) occurs in the grantee or privilege of a
column-grant row. -/
def colonFreeGrant (g : ColumnGrantRow) : Prop :=
  ':' ∉ g.grantee.data ∧ ':' ∉ g.privilege.data

instance (g : ColumnGrantRow) : Decidable (colonFreeGrant g) := by
  unfold colonFreeGrant
  infer_instance

/-- The column names the grouping map accumulates for one key: every column
granted under that key, each exactly once, in first-occurrence order. -/
def colKeyColumns (rows : List ColumnGrantRow) (k : String) : List String :=
  jsSet ((rows.filter (fun g => colGrantKey g = k)).map ColumnGrantRow.column_name)

/-- The five grouping fields with a null condition identified with `""` — the
equivalence the code's key string actually implements (for `|`-free fields). -/
def normTriggerFields (t : TriggerRow) :
    String × String × String × String × String :=
  (t.trigger_name, t.action_timing, t.action_orientation, t.action_statement,
    t.action_condition.getD "")

/-- No `|` (the key delimiter) occurs in the grouping fields of a row. -/
def pipeFreeTrigger (t : TriggerRow) : Prop :=
  '|' ∉ t.trigger_name.data ∧ '|' ∉ t.action_timing.data ∧
    '|' ∉ t.action_orientation.data ∧ '|' ∉ t.action_statement.data

instance (t : TriggerRow) : Decidable (pipeFreeTrigger t) := by
  unfold pipeFreeTrigger
  infer_instance

/-- The first row carrying a given grouping key. -/
def firstRowWithKey (rows : List TriggerRow) (k : String) : Option TriggerRow :=
  rows.find? (fun t => triggerKey t = k)

/-- The group the map holds for key `k`: the non-event fields of the first row
with that key, and the events of all its rows in row order. -/
def specTriggerGroup (rows : List TriggerRow) (k : String) : TriggerGroup :=
  match firstRowWithKey rows k with
  | some t => { newTriggerGroup t with events := triggerEventsOf rows k }
  | none => ⟨"", "", [], "", "", none, 0⟩

/-! ## Proof-helper definitions -/

/-- The first character of a string (used to separate statement kinds). -/
def headIs (s : String) (c : Char) : Prop := s.data.head? = some c

/-! # Theorems -/

/-! ## General helper lemmas -/

theorem str_append_left_cancel {p a b : String} (h : p ++ a = p ++ b) : a = b := by
  apply String.ext
  have hd := congrArg String.data h
  rw [String.data_append, String.data_append] at hd
  exact List.append_cancel_left hd

theorem str_append_right_cancel {a b q : String} (h : a ++ q = b ++ q) : a = b := by
  apply String.ext
  have hd := congrArg String.data h
  rw [String.data_append, String.data_append] at hd
  exact List.append_cancel_right hd

theorem str_append_ne (p : String) {a b : String} (h : a ≠ b) : p ++ a ≠ p ++ b :=
  fun he => h (str_append_left_cancel he)

theorem headIs_append {l : String} (r : String) {c : Char} (h : headIs l c) :
    headIs (l ++ r) c := by
  unfold headIs at h ⊢
  rw [String.data_append]
  cases hl : l.data with
  | nil => rw [hl] at h; simp at h
  | cons x xs =>
    rw [hl] at h
    simp only [List.head?_cons, Option.some.injEq] at h
    subst h
    rfl

theorem ne_of_headIs {a b : String} {c₁ c₂ : Char} (ha : headIs a c₁)
    (hb : headIs b c₂) (h : c₁ ≠ c₂) : a ≠ b := by
  intro he
  apply h
  unfold headIs at ha hb
  rw [he] at ha
  rw [ha] at hb
  exact Option.some.inj hb

theorem escapeIdent_of_special {s : String} (h : ' ' ∈ s.data ∨ '-' ∈ s.data) :
    escapeIdent s = "\"" ++ s ++ "\"" := by
  unfold escapeIdent
  exact if_pos h

theorem escapeIdent_of_plain {s : String} (h : ¬(' ' ∈ s.data ∨ '-' ∈ s.data)) :
    escapeIdent s = s := by
  unfold escapeIdent
  exact if_neg h

theorem quoted_data (s : String) :
    ("\"" ++ s ++ "\"").data = Char.ofNat 34 :: (s.data ++ [Char.ofNat 34]) := by
  rw [String.data_append, String.data_append]
  rfl

theorem quoted_ne_self (s : String) : "\"" ++ s ++ "\"" ≠ s := by
  intro h
  have hd := congrArg String.data h
  rw [quoted_data] at hd
  have hl := congrArg List.length hd
  simp at hl
  omega

theorem escapeIdent_injective : Function.Injective escapeIdent := by
  intro a b h
  unfold escapeIdent at h
  by_cases ha : (' ' ∈ a.data ∨ '-' ∈ a.data) <;>
    by_cases hb : (' ' ∈ b.data ∨ '-' ∈ b.data)
  · rw [if_pos ha, if_pos hb] at h
    exact str_append_left_cancel (str_append_right_cancel h)
  · rw [if_pos ha, if_neg hb] at h
    exfalso
    apply hb
    have hd := congrArg String.data h
    rw [quoted_data] at hd
    cases ha with
    | inl hsp => exact Or.inl (by rw [← hd]; simp [hsp])
    | inr hhy => exact Or.inr (by rw [← hd]; simp [hhy])
  · rw [if_neg ha, if_pos hb] at h
    exfalso
    apply ha
    have hd := congrArg String.data h.symm
    rw [quoted_data] at hd
    cases hb with
    | inl hsp => exact Or.inl (by rw [← hd]; simp [hsp])
    | inr hhy => exact Or.inr (by rw [← hd]; simp [hhy])
  · rw [if_neg ha, if_neg hb] at h
    exact h

theorem jsSet_go_mem {α : Type} [DecidableEq α] (l : List α) (acc : List α) (a : α) :
    (a ∈ l.foldl (fun acc x => if x ∈ acc then acc else acc ++ [x]) acc) ↔
      a ∈ acc ∨ a ∈ l := by
  induction l generalizing acc with
  | nil => simp
  | cons x xs ih =>
    simp only [List.foldl_cons]
    by_cases hx : x ∈ acc
    · rw [if_pos hx, ih]
      constructor
      · rintro (h | h)
        · exact Or.inl h
        · exact Or.inr (List.mem_cons_of_mem _ h)
      · rintro (h | h)
        · exact Or.inl h
        · rcases List.mem_cons.mp h with rfl | h
          · exact Or.inl hx
          · exact Or.inr h
    · rw [if_neg hx, ih]
      simp only [List.mem_append, List.mem_singleton, List.mem_cons]
      tauto

theorem mem_jsSet {α : Type} [DecidableEq α] {l : List α} {a : α} :
    a ∈ jsSet l ↔ a ∈ l := by
  unfold jsSet
  rw [jsSet_go_mem]
  simp

theorem jsSet_go_nodup {α : Type} [DecidableEq α] (l : List α) (acc : List α)
    (hacc : acc.Nodup) :
    (l.foldl (fun acc x => if x ∈ acc then acc else acc ++ [x]) acc).Nodup := by
  induction l generalizing acc with
  | nil => simpa using hacc
  | cons x xs ih =>
    simp only [List.foldl_cons]
    by_cases hx : x ∈ acc
    · rw [if_pos hx]; exact ih acc hacc
    · rw [if_neg hx]
      apply ih
      simp [List.nodup_append, hacc, hx, List.disjoint_singleton]

theorem jsSet_nodup {α : Type} [DecidableEq α] (l : List α) : (jsSet l).Nodup :=
  jsSet_go_nodup l [] List.nodup_nil

theorem strTruthy_eq_false_iff (o : Option String) :
    strTruthy o = false ↔ o = none ∨ o = some "" := by
  cases o with
  | none => simp [strTruthy]
  | some s =>
    simp only [strTruthy, Option.some.injEq, decide_eq_false_iff_not, not_not]
    constructor
    · intro h; exact Or.inr h
    · rintro (h | h)
      · cases h
      · exact h

/-! ## C1: configuration precedence -/

/-- Claim C1 (code bug): the claimed precedence is CLI > env > file > defaults,
matching the doc comment on `resolveConfig` and `CONFIG.md`, but the code
tests `!resolved.out` *after* copying the config-file value, so a config-file
value shadows the `OUTPUT_DIR` environment variable: with no CLI arguments, a
config file carrying `out = "./fromfile"` and `OUTPUT_DIR=./fromenv` set, the
resolver returns the file value, not the environment value. -/
theorem resolveConfig_file_shadows_env :
    (resolveConfig emptyCliArgs
        (some { emptyFileConfig with out := some "./fromfile" })
        { emptyEnv with OUTPUT_DIR := some "./fromenv" }).out = some "./fromfile" ∧
      ("./fromfile" : String) ≠ "./fromenv" := by
  exact ⟨by decide, by decide⟩

/-! ## C8: `validateConfig` -/

/-- Claim C8 counterexample: a configuration whose `database_url` is present but
empty is rejected (`!config.database_url` is true for `""`), while the claim
("throws iff … database_url is missing …") says this configuration passes. -/
theorem validateConfig_empty_url_counterexample :
    validateConfig
        { schemas := ["app_public"]
          out := none
          roles := none
          database_url := some ""
          role_mappings := []
          scope := ScopeValue.single ExportScopeItem.all
          include_date := none } =
      Except.error "Database URL must be provided" ∧
    (some "" : Option String) ≠ none := by
  exact ⟨rfl, by decide⟩

/-- Claim C8 (amended): `validateConfig` returns normally iff the schema list is
non-empty, `database_url` is present *and non-empty*, and no schema name is
empty or whitespace-only.  (The function never modifies its argument.) -/
theorem validateConfig_ok_iff (config : TablerizerOptions) :
    validateConfig config = Except.ok () ↔
      (config.schemas ≠ [] ∧ config.database_url ≠ none ∧
        config.database_url ≠ some "" ∧ ∀ s ∈ config.schemas, jsTrim s ≠ "") := by
  unfold validateConfig
  by_cases h1 : config.schemas.length = 0
  · rw [if_pos h1]
    simp [List.length_eq_zero.mp h1]
  · rw [if_neg h1]
    by_cases h2 : strTruthy config.database_url = false
    · rw [if_pos h2]
      rcases (strTruthy_eq_false_iff _).mp h2 with h | h <;> simp [h]
    · rw [if_neg h2]
      have h3 := (strTruthy_eq_false_iff config.database_url).not.mp h2
      rcases not_or.mp h3 with ⟨hn, he⟩
      cases hf : config.schemas.find? (fun s => s = "" ∨ jsTrim s = "") with
      | some s =>
        have hps := List.find?_some hf
        have hmem := List.mem_of_find?_eq_some hf
        simp only [decide_eq_true_eq] at hps
        have hbad : jsTrim s = "" := by
          rcases hps with rfl | h
          · rfl
          · exact h
        constructor
        · intro h; cases h
        · rintro ⟨-, -, -, hall⟩
          exact absurd hbad (hall s hmem)
      | none =>
        have hall := List.find?_eq_none.mp hf
        constructor
        · intro _
          refine ⟨fun hc => h1 (by simp [hc]), hn, he, fun s hs => ?_⟩
          have hps := hall s hs
          simp only [decide_eq_true_eq, not_or] at hps
          exact hps.2
        · intro _
          rfl

/-- Witness for `validateConfig_ok_iff`: a well-formed configuration passes. -/
theorem validateConfig_ok_iff_witness :
    validateConfig
        { schemas := ["app_public"]
          out := none
          roles := none
          database_url := some "postgres://u:p@h:5432/db"
          role_mappings := []
          scope := ScopeValue.single ExportScopeItem.all
          include_date := none } =
      Except.ok () :=
  (validateConfig_ok_iff _).mpr (by decide)

/-! ## C2: table-grant deduplication -/

/-- Claim C2 counterexample: `generateGrantsSQL` performs no deduplication at
all — a duplicated input row yields a duplicated `GRANT` statement in the
emitted list, refuting "produces no duplicate statements". -/
theorem generateGrantsSQL_dup_counterexample :
    ¬ (generateGrantsSQL "app" "t"
        [⟨"o", "r", "SELECT", false⟩, ⟨"o", "r", "SELECT", false⟩]).Nodup := by
  decide

/-- Claim C2 (amended): `generateGrantsSQL` emits exactly one statement per
input row (duplicates included); still, appending a row that already occurs
in the input leaves the *set* of emitted statements unchanged. -/
theorem generateGrantsSQL_append_set_eq (schema tableName : String)
    (grants : List GrantRow) (g : GrantRow) (h : g ∈ grants) :
    (generateGrantsSQL schema tableName (grants ++ [g])).toFinset =
      (generateGrantsSQL schema tableName grants).toFinset ∧
    generateGrantsSQL schema tableName grants =
      grants.map (grantStmt schema tableName) := by
  refine ⟨?_, rfl⟩
  unfold generateGrantsSQL
  rw [List.map_append, List.toFinset_append, Finset.union_eq_left]
  intro x hx
  simp only [List.map_cons, List.map_nil, List.toFinset_cons, List.toFinset_nil,
    Finset.mem_insert, Finset.not_mem_empty, or_false] at hx
  subst hx
  rw [List.mem_toFinset]
  exact List.mem_map_of_mem _ h

/-- Witness for `generateGrantsSQL_append_set_eq` at a concrete input. -/
theorem generateGrantsSQL_append_set_eq_witness :
    (generateGrantsSQL "app" "t"
        ([⟨"o", "r", "SELECT", false⟩] ++ [⟨"o", "r", "SELECT", false⟩])).toFinset =
      (generateGrantsSQL "app" "t" [⟨"o", "r", "SELECT", false⟩]).toFinset :=
  (generateGrantsSQL_append_set_eq "app" "t" [⟨"o", "r", "SELECT", false⟩]
    ⟨"o", "r", "SELECT", false⟩ (by decide)).1

/-! ## C10: determinism without the date header -/

/-- Claim C10: with `include_date = false` the generated SQL depends only on the
schema, the table/function data, the role filter and the role mappings — the
clock value (`now`, the model of `new Date().toISOString()`) never enters the
output, so two calls with equal inputs return identical strings. -/
theorem generateSQL_date_independent :
    (∀ (schema : String) (td : TableData) (am : Option (String → String))
        (now₁ now₂ : String),
      generateTableSQL schema td am false now₁ =
        generateTableSQL schema td am false now₂) ∧
    (∀ (func : FunctionInfo) (roles : Option (List String))
        (am : Option (String → String)) (now₁ now₂ : String),
      generateFunctionSQL func roles am false now₁ =
        generateFunctionSQL func roles am false now₂) := by
  constructor
  · intro schema td am now₁ now₂
    have h : tableSections schema td false now₁ = tableSections schema td false now₂ := by
      unfold tableSections tableHeader
      simp
    unfold generateTableSQL
    rw [h]
  · intro func roles am now₁ now₂
    have h : functionLines func roles false now₁ = functionLines func roles false now₂ := by
      unfold functionLines
      simp
    unfold generateFunctionSQL
    rw [h]

/-! ## C6: identifier escaping -/

/-- Claim C6: an identifier is wrapped in double quotes exactly when it contains
a space or a hyphen, and emitted verbatim otherwise; the generators route the
grantee, role, column, trigger and policy names through this escaping
(`grantStmt`, `dropPolicyStmt` and `renderTriggerGroup` shown as
representative sites, each an unfolding of its definition). -/
theorem escapeIdent_quoted_iff (id : String) :
    (escapeIdent id = "\"" ++ id ++ "\"" ↔ (' ' ∈ id.data ∨ '-' ∈ id.data)) ∧
    (escapeIdent id = id ↔ ¬(' ' ∈ id.data ∨ '-' ∈ id.data)) ∧
    (∀ schema tableName (g : GrantRow),
      grantStmt schema tableName g =
        "GRANT " ++ g.privilege ++ " ON TABLE " ++ schema ++ "." ++ tableName ++
          " TO " ++ escapeIdent g.grantee ++
          (if g.is_grantable then " WITH GRANT OPTION" else "") ++ ";") ∧
    (∀ schema tableName policyName,
      dropPolicyStmt schema tableName policyName =
        ("DROP POLICY IF EXISTS " ++ escapeIdent policyName) ++
          (" ON " ++ schema ++ "." ++ tableName ++ ";")) ∧
    (∀ schema tableName (g : TriggerGroup),
      renderTriggerGroup schema tableName g =
        "CREATE TRIGGER " ++ escapeIdent g.trigger_name ++
          " " ++ g.action_timing ++ " " ++
          String.intercalate " OR " (sortEvents g.events) ++
          " ON " ++ schema ++ "." ++ tableName ++
          " FOR EACH " ++ g.action_orientation ++
          (if strTruthy g.action_condition then
            " WHEN (" ++ g.action_condition.getD "" ++ ")"
          else "") ++
          " " ++ g.action_statement ++ ";") := by
  refine ⟨?_, ?_, fun _ _ _ => rfl, fun _ _ _ => rfl, fun _ _ _ => rfl⟩
  · constructor
    · intro h
      by_cases hc : (' ' ∈ id.data ∨ '-' ∈ id.data)
      · exact hc
      · rw [escapeIdent_of_plain hc] at h
        exact absurd h.symm (quoted_ne_self id)
    · exact escapeIdent_of_special
  · constructor
    · intro h
      by_cases hc : (' ' ∈ id.data ∨ '-' ∈ id.data)
      · rw [escapeIdent_of_special hc] at h
        exact absurd h (quoted_ne_self id)
      · exact hc
    · exact escapeIdent_of_plain

/-! ## Sorting helper lemmas -/

theorem charListLe_total : ∀ (a b : List Char),
    charListLe a b = true ∨ charListLe b a = true := by
  intro a
  induction a with
  | nil => intro b; exact Or.inl rfl
  | cons x xs ih =>
    intro b
    cases b with
    | nil => exact Or.inr rfl
    | cons y ys =>
      by_cases hxy : x < y
      · exact Or.inl (by simp [charListLe, hxy])
      · by_cases hyx : y < x
        · exact Or.inr (by simp [charListLe, hyx])
        · rcases ih ys with h | h
          · exact Or.inl (by simp [charListLe, hxy, hyx, h])
          · exact Or.inr (by simp [charListLe, hxy, hyx, h])

theorem charListLe_trans : ∀ {a b c : List Char},
    charListLe a b = true → charListLe b c = true → charListLe a c = true := by
  intro a
  induction a with
  | nil => intro b c _ _; rfl
  | cons x xs ih =>
    intro b c h₁ h₂
    cases b with
    | nil => simp [charListLe] at h₁
    | cons y ys =>
      cases c with
      | nil => simp [charListLe] at h₂
      | cons z zs =>
        simp only [charListLe] at h₁ h₂ ⊢
        by_cases hxy : x < y
        · by_cases hyz : y < z
          · simp [lt_trans hxy hyz]
          · by_cases hzy : z < y
            · simp [hyz, hzy] at h₂
            · have hyz' : y = z := le_antisymm (not_lt.mp hzy) (not_lt.mp hyz)
              simp [hyz' ▸ hxy]
        · by_cases hyx : y < x
          · simp [hxy, hyx] at h₁
          · have hxy' : x = y := le_antisymm (not_lt.mp hyx) (not_lt.mp hxy)
            subst hxy'
            rw [if_neg hxy, if_neg hyx] at h₁
            by_cases hyz : x < z
            · simp [hyz]
            · by_cases hzy : z < x
              · simp [hyz, hzy] at h₂
              · simp only [hyz, hzy, if_false] at h₂ ⊢
                exact ih h₁ h₂

theorem strLeB_total (a b : String) : strLeB a b = true ∨ strLeB b a = true :=
  charListLe_total a.data b.data

theorem strLeB_trans {a b c : String} (h₁ : strLeB a b = true)
    (h₂ : strLeB b c = true) : strLeB a c = true :=
  charListLe_trans h₁ h₂

theorem sortPolicies_sorted (ps : List Policy) :
    List.Sorted (fun a b : Policy => strLeB a.policy b.policy = true)
      (sortPolicies ps) :=
  @List.sorted_insertionSort Policy _ _
    ⟨fun a b => strLeB_total a.policy b.policy⟩
    ⟨fun _ _ _ hab hbc => strLeB_trans hab hbc⟩ ps

theorem sortPolicies_perm (ps : List Policy) : (sortPolicies ps).Perm ps :=
  List.perm_insertionSort _ ps

theorem sortTriggerGroups_sorted (gs : List TriggerGroup) :
    List.Sorted (fun a b : TriggerGroup => strLeB a.trigger_name b.trigger_name = true)
      (sortTriggerGroups gs) :=
  @List.sorted_insertionSort TriggerGroup _ _
    ⟨fun a b => strLeB_total a.trigger_name b.trigger_name⟩
    ⟨fun _ _ _ hab hbc => strLeB_trans hab hbc⟩ gs

theorem sortTriggerGroups_perm (gs : List TriggerGroup) :
    (sortTriggerGroups gs).Perm gs :=
  List.perm_insertionSort _ gs

theorem sortEvents_sorted (es : List String) :
    List.Sorted (fun a b : String => strLeB a b = true) (sortEvents es) :=
  @List.sorted_insertionSort String _ _
    ⟨fun a b => strLeB_total a b⟩
    ⟨fun _ _ _ hab hbc => strLeB_trans hab hbc⟩ es

theorem sortEvents_perm (es : List String) : (sortEvents es).Perm es :=
  List.perm_insertionSort _ es

/-! ## C7: `generatePoliciesSQL` -/

theorem renderPolicy_headIs (schema tableName : String) (p : Policy) :
    headIs (renderPolicy schema tableName p) 'C' := by
  unfold renderPolicy
  repeat apply headIs_append
  rfl

theorem enableRlsStmt_headIs (schema tableName : String) :
    headIs (enableRlsStmt schema tableName) 'A' := by
  unfold enableRlsStmt
  repeat apply headIs_append
  rfl

theorem forceRlsStmt_headIs (schema tableName : String) :
    headIs (forceRlsStmt schema tableName) 'A' := by
  unfold forceRlsStmt
  repeat apply headIs_append
  rfl

theorem enable_ne_force (schema tableName : String) :
    enableRlsStmt schema tableName ≠ forceRlsStmt schema tableName :=
  str_append_ne _ (by decide)

theorem enable_ne_renderPolicy (schema tableName : String) (p : Policy) :
    enableRlsStmt schema tableName ≠ renderPolicy schema tableName p :=
  ne_of_headIs (enableRlsStmt_headIs _ _) (renderPolicy_headIs _ _ _) (by decide)

theorem force_ne_renderPolicy (schema tableName : String) (p : Policy) :
    forceRlsStmt schema tableName ≠ renderPolicy schema tableName p :=
  ne_of_headIs (forceRlsStmt_headIs _ _) (renderPolicy_headIs _ _ _) (by decide)

theorem mem_generatePoliciesSQL {schema tableName : String} {e f : Bool}
    {ps : List Policy} {x : String}
    (hmem : x ∈ generatePoliciesSQL schema tableName e f ps) :
    (e = true ∧ x = enableRlsStmt schema tableName) ∨
    (f = true ∧ x = forceRlsStmt schema tableName) ∨
    (∃ p ∈ sortPolicies ps, x = renderPolicy schema tableName p) := by
  unfold generatePoliciesSQL at hmem
  rcases List.mem_append.mp hmem with h | h
  · rcases List.mem_append.mp h with h' | h'
    · cases e with
      | true =>
        left
        refine ⟨rfl, ?_⟩
        simpa using h'
      | false => simp at h'
    · cases f with
      | true =>
        right; left
        refine ⟨rfl, ?_⟩
        simpa using h'
      | false => simp at h'
  · right; right
    rcases List.mem_map.mp h with ⟨p, hp, hx⟩
    exact ⟨p, hp, hx.symm⟩

/-- Claim C7 counterexample: a policy with an *empty* `using` expression
(`using = ""`, which is present but falsy in JS) gets no `USING` clause,
refuting "a USING clause exactly when a using expression is present". -/
theorem generatePoliciesSQL_empty_using_counterexample :
    generatePoliciesSQL "s" "t" false false
        [⟨"p", "ALL", none, "PERMISSIVE", some "", none⟩] =
      ["CREATE POLICY p ON s.t FOR ALL;"] ∧
    ("CREATE POLICY p ON s.t FOR ALL;" : String) ≠
      "CREATE POLICY p ON s.t FOR ALL USING ();" := by
  exact ⟨by decide, by decide⟩

/-- Claim C7 (amended): `generatePoliciesSQL` emits `ENABLE ROW LEVEL SECURITY`
exactly when `rlsEnabled`, `FORCE ROW LEVEL SECURITY` exactly when `rlsForce`,
then one `CREATE POLICY` statement per policy sorted alphabetically by policy
name, with `AS RESTRICTIVE` exactly when `permissive = "RESTRICTIVE"`, a `TO`
clause exactly when the roles list is non-null and non-empty, a `USING`
clause exactly when a *non-null, non-empty* `using` expression is present and
a `WITH CHECK` clause exactly when a *non-null, non-empty* `with_check`
expression is present. -/
theorem generatePoliciesSQL_spec (schema tableName : String) (e f : Bool)
    (ps : List Policy) :
    generatePoliciesSQL schema tableName e f ps =
      (if e then [enableRlsStmt schema tableName] else []) ++
        (if f then [forceRlsStmt schema tableName] else []) ++
        (sortPolicies ps).map (renderPolicy schema tableName) ∧
    (generatePoliciesSQL schema tableName e f ps).length =
      (if e then 1 else 0) + (if f then 1 else 0) + ps.length ∧
    (enableRlsStmt schema tableName ∈ generatePoliciesSQL schema tableName e f ps ↔
      e = true) ∧
    (forceRlsStmt schema tableName ∈ generatePoliciesSQL schema tableName e f ps ↔
      f = true) ∧
    (∀ p ∈ ps, renderPolicy schema tableName p ∈
      generatePoliciesSQL schema tableName e f ps) ∧
    List.Sorted (fun a b : Policy => strLeB a.policy b.policy = true)
      (sortPolicies ps) ∧
    (sortPolicies ps).Perm ps ∧
    (∀ p : Policy, renderPolicy schema tableName p =
      "CREATE POLICY " ++ escapeIdent p.policy ++ " ON " ++ schema ++ "." ++
        tableName ++
        (if p.permissive = "RESTRICTIVE" then " AS RESTRICTIVE" else "") ++
        " FOR " ++ p.cmd ++
        (match p.roles with
         | some roles =>
           if roles.length > 0 then
             " TO " ++ String.intercalate ", " (roles.map escapeIdent)
           else ""
         | none => "") ++
        (if strTruthy p.using_expr then
          " USING (" ++ p.using_expr.getD "" ++ ")"
        else "") ++
        (if strTruthy p.with_check then
          " WITH CHECK (" ++ p.with_check.getD "" ++ ")"
        else "") ++ ";") := by
  have hperm := sortPolicies_perm ps
  refine ⟨rfl, ?_, ?_, ?_, ?_, sortPolicies_sorted ps, hperm, fun _ => rfl⟩
  · have hl : (sortPolicies ps).length = ps.length := hperm.length_eq
    cases e <;> cases f <;>
      simp [generatePoliciesSQL, List.length_append, List.length_map, hl] <;> omega
  · constructor
    · intro hmem
      rcases mem_generatePoliciesSQL hmem with ⟨he, _⟩ | ⟨_, hx⟩ | ⟨p, _, hx⟩
      · exact he
      · exact absurd hx (enable_ne_force _ _)
      · exact absurd hx (enable_ne_renderPolicy _ _ _)
    · intro he
      subst he
      simp [generatePoliciesSQL]
  · constructor
    · intro hmem
      rcases mem_generatePoliciesSQL hmem with ⟨_, hx⟩ | ⟨hf, _⟩ | ⟨p, _, hx⟩
      · exact absurd hx.symm (enable_ne_force _ _)
      · exact hf
      · exact absurd hx (force_ne_renderPolicy _ _ _)
    · intro hf
      subst hf
      simp [generatePoliciesSQL]
  · intro p hp
    have hp' : p ∈ sortPolicies ps := hperm.mem_iff.mpr hp
    unfold generatePoliciesSQL
    exact List.mem_append.mpr (Or.inr (List.mem_map_of_mem _ hp'))

/-! ## C3: `generateTriggersSQL` grouping -/

theorem jsSet_append_singleton {α : Type} [DecidableEq α] (l : List α) (a : α) :
    jsSet (l ++ [a]) = if a ∈ jsSet l then jsSet l else jsSet l ++ [a] := by
  unfold jsSet
  rw [List.foldl_append]
  rfl

theorem triggerGroupsOf_append (rows : List TriggerRow) (t : TriggerRow) :
    triggerGroupsOf (rows ++ [t]) = insertTrigger (triggerGroupsOf rows) t := by
  unfold triggerGroupsOf
  rw [List.foldl_append]
  rfl

theorem insertTrigger_fresh (m : List (String × TriggerGroup)) (t : TriggerRow)
    (h : triggerKey t ∉ m.map Prod.fst) :
    insertTrigger m t = m ++ [(triggerKey t, newTriggerGroup t)] := by
  induction m with
  | nil => rfl
  | cons e rest ih =>
    obtain ⟨k, g⟩ := e
    simp only [List.map_cons, List.mem_cons, not_or] at h
    unfold insertTrigger
    rw [if_neg (fun he => h.1 he.symm)]
    rw [ih h.2]
    rfl

theorem insertTrigger_update (ks : List String) (F : String → TriggerGroup)
    (t : TriggerRow) (h : triggerKey t ∈ ks) (hnd : ks.Nodup) :
    insertTrigger (ks.map fun k => (k, F k)) t =
      ks.map fun k =>
        (k, if k = triggerKey t then
              { F k with events := (F k).events ++ [t.event_manipulation] }
            else F k) := by
  induction ks with
  | nil => cases h
  | cons k ks' ih =>
    simp only [List.map_cons]
    unfold insertTrigger
    by_cases hk : k = triggerKey t
    · rw [if_pos hk, if_pos hk]
      have hnot : ∀ k' ∈ ks', k' ≠ triggerKey t := by
        intro k' hk'
        rw [← hk]
        intro he
        exact (List.nodup_cons.mp hnd).1 (he ▸ hk')
      congr 1
      apply List.map_congr_left
      intro k' hk'
      rw [if_neg (hnot k' hk')]
    · rw [if_neg hk, if_neg hk]
      have h' : triggerKey t ∈ ks' := by
        rcases List.mem_cons.mp h with he | h'
        · exact absurd he.symm hk
        · exact h'
      rw [ih h' (List.nodup_cons.mp hnd).2]

theorem triggerEventsOf_append (rows : List TriggerRow) (t : TriggerRow)
    (k : String) :
    triggerEventsOf (rows ++ [t]) k =
      triggerEventsOf rows k ++
        (if triggerKey t = k then [t.event_manipulation] else []) := by
  unfold triggerEventsOf
  rw [List.filter_append, List.map_append]
  congr 1
  by_cases hk : triggerKey t = k
  · simp [hk]
  · simp [hk]

theorem firstRowWithKey_append (rows : List TriggerRow) (t : TriggerRow)
    (k : String) :
    firstRowWithKey (rows ++ [t]) k =
      (firstRowWithKey rows k).or (firstRowWithKey [t] k) := by
  unfold firstRowWithKey
  rw [List.find?_append]

theorem firstRowWithKey_eq_none (rows : List TriggerRow) (k : String)
    (h : k ∉ rows.map triggerKey) : firstRowWithKey rows k = none := by
  unfold firstRowWithKey
  rw [List.find?_eq_none]
  intro t ht
  simp only [decide_eq_true_eq]
  intro he
  exact h (he ▸ List.mem_map_of_mem triggerKey ht)

theorem specTriggerGroup_append_of_mem (rows : List TriggerRow)
    (t : TriggerRow) (k : String) (hk : k ∈ rows.map triggerKey) :
    specTriggerGroup (rows ++ [t]) k =
      (if k = triggerKey t then
        { specTriggerGroup rows k with
            events := (specTriggerGroup rows k).events ++ [t.event_manipulation] }
      else specTriggerGroup rows k) := by
  have hfind : ∃ r, firstRowWithKey rows k = some r := by
    rcases List.mem_map.mp hk with ⟨r, hr, hkr⟩
    have : (firstRowWithKey rows k).isSome = true := by
      unfold firstRowWithKey
      rw [List.find?_isSome]
      exact ⟨r, hr, by simp [hkr]⟩
    exact Option.isSome_iff_exists.mp this
  obtain ⟨r, hr⟩ := hfind
  unfold specTriggerGroup
  rw [firstRowWithKey_append, hr]
  simp only [Option.or_some]
  rw [triggerEventsOf_append]
  by_cases hkt : k = triggerKey t
  · rw [if_pos hkt, if_pos hkt.symm]
  · rw [if_neg hkt, if_neg (fun h => hkt h.symm)]
    simp

theorem specTriggerGroup_append_fresh (rows : List TriggerRow)
    (t : TriggerRow) (h : triggerKey t ∉ rows.map triggerKey) :
    specTriggerGroup (rows ++ [t]) (triggerKey t) = newTriggerGroup t := by
  unfold specTriggerGroup
  rw [firstRowWithKey_append, firstRowWithKey_eq_none rows _ h]
  have hfind : firstRowWithKey [t] (triggerKey t) = some t := by
    unfold firstRowWithKey
    simp [List.find?]
  rw [hfind]
  simp only [Option.none_or]
  rw [triggerEventsOf_append]
  unfold triggerEventsOf
  have hf : rows.filter (fun r => triggerKey r = triggerKey t) = [] := by
    rw [List.filter_eq_nil_iff]
    intro r hr
    simp only [decide_eq_true_eq]
    intro he
    exact h (he ▸ List.mem_map_of_mem triggerKey hr)
  rw [hf]
  simp [newTriggerGroup]

theorem triggerGroupsOf_eq (rows : List TriggerRow) :
    triggerGroupsOf rows =
      (jsSet (rows.map triggerKey)).map
        (fun k => (k, specTriggerGroup rows k)) := by
  induction rows using List.reverseRecOn with
  | nil => rfl
  | append_singleton rs t ih =>
    rw [triggerGroupsOf_append, ih]
    have hmap : List.map triggerKey (rs ++ [t]) =
        List.map triggerKey rs ++ [triggerKey t] := by simp
    rw [hmap, jsSet_append_singleton]
    by_cases hmem : triggerKey t ∈ jsSet (rs.map triggerKey)
    · rw [if_pos hmem]
      have hmem' : triggerKey t ∈ rs.map triggerKey := mem_jsSet.mp hmem
      rw [insertTrigger_update _ _ _ hmem (jsSet_nodup _)]
      apply List.map_congr_left
      intro k hk
      have hk' : k ∈ rs.map triggerKey := mem_jsSet.mp hk
      rw [specTriggerGroup_append_of_mem rs t k hk']
    · rw [if_neg hmem]
      have hmem' : triggerKey t ∉ rs.map triggerKey :=
        fun h => hmem (mem_jsSet.mpr h)
      rw [insertTrigger_fresh _ _ ?keyfresh]
      case keyfresh =>
        intro hc
        apply hmem
        rw [List.map_map] at hc
        simpa using hc
      rw [List.map_append]
      congr 1
      · apply List.map_congr_left
        intro k hk
        have hk' : k ∈ rs.map triggerKey := mem_jsSet.mp hk
        rw [specTriggerGroup_append_of_mem rs t k hk']
        rw [if_neg (fun he => hmem' (by rw [← he]; exact hk'))]
      · simp only [List.map_cons, List.map_nil]
        rw [specTriggerGroup_append_fresh rs t hmem']

theorem sepFree_append_inj {sep : Char} :
    ∀ {a b x y : List Char}, sep ∉ a → sep ∉ b →
      a ++ sep :: x = b ++ sep :: y → a = b ∧ x = y := by
  intro a
  induction a with
  | nil =>
    intro b x y _ hb h
    cases b with
    | nil =>
      simp only [List.nil_append] at h
      exact ⟨rfl, List.tail_eq_of_cons_eq h⟩
    | cons bh bt =>
      simp only [List.nil_append, List.cons_append] at h
      have h1 := List.head_eq_of_cons_eq h
      exact absurd (h1 ▸ List.mem_cons_self bh bt) hb
  | cons ah at' ih =>
    intro b x y ha hb h
    cases b with
    | nil =>
      simp only [List.nil_append, List.cons_append] at h
      have h1 := List.head_eq_of_cons_eq h
      exact absurd (h1 ▸ List.mem_cons_self ah at') ha
    | cons bh bt =>
      simp only [List.cons_append] at h
      have h1 := List.head_eq_of_cons_eq h
      have h2 := List.tail_eq_of_cons_eq h
      have ha' : sep ∉ at' := fun hm => ha (List.mem_cons_of_mem _ hm)
      have hb' : sep ∉ bt := fun hm => hb (List.mem_cons_of_mem _ hm)
      obtain ⟨he, hxy⟩ := ih ha' hb' h2
      exact ⟨by rw [h1, he], hxy⟩

theorem triggerKey_data (t : TriggerRow) :
    (triggerKey t).data =
      t.trigger_name.data ++ '|' :: (t.action_timing.data ++ '|' ::
        (t.action_orientation.data ++ '|' :: (t.action_statement.data ++ '|' ::
          (t.action_condition.getD "").data))) := by
  have hpipe : ("|" : String).data = ['|'] := rfl
  simp [triggerKey, String.data_append, hpipe]

theorem triggerKey_eq_iff {t t' : TriggerRow} (h1 : pipeFreeTrigger t)
    (h2 : pipeFreeTrigger t') :
    triggerKey t = triggerKey t' ↔ normTriggerFields t = normTriggerFields t' := by
  obtain ⟨h1n, h1t, h1o, h1s⟩ := h1
  obtain ⟨h2n, h2t, h2o, h2s⟩ := h2
  constructor
  · intro h
    have hd := congrArg String.data h
    rw [triggerKey_data, triggerKey_data] at hd
    obtain ⟨e1, hd⟩ := sepFree_append_inj h1n h2n hd
    obtain ⟨e2, hd⟩ := sepFree_append_inj h1t h2t hd
    obtain ⟨e3, hd⟩ := sepFree_append_inj h1o h2o hd
    obtain ⟨e4, hd⟩ := sepFree_append_inj h1s h2s hd
    unfold normTriggerFields
    rw [String.ext e1, String.ext e2, String.ext e3, String.ext e4, String.ext hd]
  · intro h
    simp only [normTriggerFields, Prod.mk.injEq] at h
    obtain ⟨e1, e2, e3, e4, e5⟩ := h
    unfold triggerKey
    rw [e1, e2, e3, e4, e5]

theorem firstRowWithKey_isSome (rows : List TriggerRow) (k : String)
    (hk : k ∈ rows.map triggerKey) : ∃ r, firstRowWithKey rows k = some r := by
  rcases List.mem_map.mp hk with ⟨r, hr, hkr⟩
  have hsome : (firstRowWithKey rows k).isSome = true := by
    unfold firstRowWithKey
    rw [List.find?_isSome]
    exact ⟨r, hr, by simp [hkr]⟩
  exact Option.isSome_iff_exists.mp hsome

/-- Claim C3 counterexample: two rows that do *not* share `action_condition`
(`null` in one, `""` in the other) are nevertheless combined into a single
`CREATE TRIGGER` statement, because the grouping key maps both conditions to
`""` (`action_condition || ""`); the claim predicts two statements here. -/
theorem generateTriggersSQL_null_empty_counterexample :
    generateTriggersSQL "app" "t"
        [⟨"tg", "BEFORE", "INSERT", "ROW", "EXECUTE FUNCTION f()", none, 1⟩,
         ⟨"tg", "BEFORE", "UPDATE", "ROW", "EXECUTE FUNCTION f()", some "", 1⟩] =
      ["CREATE TRIGGER tg BEFORE INSERT OR UPDATE ON app.t FOR EACH ROW EXECUTE FUNCTION f();"] ∧
    triggerFields
        (⟨"tg", "BEFORE", "INSERT", "ROW", "EXECUTE FUNCTION f()", none, 1⟩ : TriggerRow) ≠
      triggerFields
        (⟨"tg", "BEFORE", "UPDATE", "ROW", "EXECUTE FUNCTION f()", some "", 1⟩ : TriggerRow) := by
  exact ⟨by decide, by decide⟩

/-- Claim C3 (amended): provided no grouping field contains the `|` delimiter,
rows sharing `trigger_name`, `action_timing`, `action_orientation`,
`action_statement` and `action_condition` — with a null condition identified
with the empty string — are combined into exactly one `CREATE TRIGGER`
statement: the emitted list has one statement per distinct grouping key, each
group collects exactly the `event_manipulation` values of its rows (rendered
sorted and joined with `" OR "`), and the statements appear sorted
alphabetically by trigger name. -/
theorem generateTriggersSQL_grouped (schema tableName : String)
    (rows : List TriggerRow) (hp : ∀ t ∈ rows, pipeFreeTrigger t) :
    generateTriggersSQL schema tableName rows =
      (sortTriggerGroups ((triggerGroupsOf rows).map Prod.snd)).map
        (renderTriggerGroup schema tableName) ∧
    ((triggerGroupsOf rows).map Prod.fst).Nodup ∧
    (∀ k, k ∈ (triggerGroupsOf rows).map Prod.fst ↔ k ∈ rows.map triggerKey) ∧
    (∀ e ∈ triggerGroupsOf rows, e.2.events = triggerEventsOf rows e.1) ∧
    (generateTriggersSQL schema tableName rows).length =
      (jsSet (rows.map triggerKey)).length ∧
    (∀ t ∈ rows, ∀ t' ∈ rows,
      (triggerKey t = triggerKey t' ↔ normTriggerFields t = normTriggerFields t')) ∧
    List.Sorted (fun a b : TriggerGroup => strLeB a.trigger_name b.trigger_name = true)
      (sortTriggerGroups ((triggerGroupsOf rows).map Prod.snd)) ∧
    (sortTriggerGroups ((triggerGroupsOf rows).map Prod.snd)).Perm
      ((triggerGroupsOf rows).map Prod.snd) ∧
    (∀ es : List String, (sortEvents es).Perm es ∧
      List.Sorted (fun a b : String => strLeB a b = true) (sortEvents es)) ∧
    (∀ g : TriggerGroup, renderTriggerGroup schema tableName g =
      "CREATE TRIGGER " ++ escapeIdent g.trigger_name ++
        " " ++ g.action_timing ++ " " ++
        String.intercalate " OR " (sortEvents g.events) ++
        " ON " ++ schema ++ "." ++ tableName ++
        " FOR EACH " ++ g.action_orientation ++
        (if strTruthy g.action_condition then
          " WHEN (" ++ g.action_condition.getD "" ++ ")"
        else "") ++
        " " ++ g.action_statement ++ ";") := by
  have hgr := triggerGroupsOf_eq rows
  have hcomp : (Prod.fst ∘ fun k => (k, specTriggerGroup rows k)) = id := rfl
  refine ⟨rfl, ?_, ?_, ?_, ?_, ?_, sortTriggerGroups_sorted _,
    sortTriggerGroups_perm _, fun es => ⟨sortEvents_perm es, sortEvents_sorted es⟩,
    fun _ => rfl⟩
  · rw [hgr, List.map_map, hcomp, List.map_id]
    exact jsSet_nodup _
  · intro k
    rw [hgr, List.map_map, hcomp, List.map_id]
    exact mem_jsSet
  · intro e he
    rw [hgr] at he
    rcases List.mem_map.mp he with ⟨k, hk, hke⟩
    have hk' : k ∈ rows.map triggerKey := mem_jsSet.mp hk
    obtain ⟨r, hr⟩ := firstRowWithKey_isSome rows k hk'
    rw [← hke]
    simp [specTriggerGroup, hr]
  · unfold generateTriggersSQL
    rw [List.length_map, (sortTriggerGroups_perm _).length_eq, hgr,
      List.length_map, List.length_map]
  · intro t ht t' ht'
    exact triggerKey_eq_iff (hp t ht) (hp t' ht')

/-- Witness for `generateTriggersSQL_grouped` at a concrete two-row input. -/
theorem generateTriggersSQL_grouped_witness :
    ((triggerGroupsOf
        [⟨"tg", "BEFORE", "INSERT", "ROW", "EXECUTE FUNCTION f()", none, 1⟩,
         ⟨"tg", "BEFORE", "UPDATE", "ROW", "EXECUTE FUNCTION f()", none, 1⟩]).map
      Prod.fst).Nodup :=
  (generateTriggersSQL_grouped "app" "t"
    [⟨"tg", "BEFORE", "INSERT", "ROW", "EXECUTE FUNCTION f()", none, 1⟩,
     ⟨"tg", "BEFORE", "UPDATE", "ROW", "EXECUTE FUNCTION f()", none, 1⟩]
    (by decide)).2.1

/-! ## C5: `generateColumnGrantsSQL` grouping -/

theorem colGrantGroups_append (rows : List ColumnGrantRow) (g : ColumnGrantRow) :
    colGrantGroups (rows ++ [g]) =
      insertColGrant (colGrantGroups rows) (colGrantKey g) g.column_name := by
  unfold colGrantGroups
  rw [List.foldl_append]
  rfl

theorem insertColGrant_fresh (m : List (String × List String)) (key col : String)
    (h : key ∉ m.map Prod.fst) :
    insertColGrant m key col = m ++ [(key, [col])] := by
  induction m with
  | nil => rfl
  | cons e rest ih =>
    obtain ⟨k, cols⟩ := e
    simp only [List.map_cons, List.mem_cons, not_or] at h
    unfold insertColGrant
    rw [if_neg (fun he => h.1 he.symm)]
    rw [ih h.2]
    rfl

theorem insertColGrant_update (ks : List String) (F : String → List String)
    (key col : String) (h : key ∈ ks) (hnd : ks.Nodup) :
    insertColGrant (ks.map fun k => (k, F k)) key col =
      ks.map fun k =>
        (k, if k = key then (if col ∈ F k then F k else F k ++ [col]) else F k) := by
  induction ks with
  | nil => cases h
  | cons k ks' ih =>
    simp only [List.map_cons]
    unfold insertColGrant
    by_cases hk : k = key
    · rw [if_pos hk, if_pos hk]
      have hnot : ∀ k' ∈ ks', k' ≠ key := by
        intro k' hk'
        rw [← hk]
        intro he
        exact (List.nodup_cons.mp hnd).1 (he ▸ hk')
      subst hk
      congr 1
      apply List.map_congr_left
      intro k' hk'
      rw [if_neg (hnot k' hk')]
    · rw [if_neg hk, if_neg hk]
      have h' : key ∈ ks' := by
        rcases List.mem_cons.mp h with he | h'
        · exact absurd he.symm hk
        · exact h'
      rw [ih h' (List.nodup_cons.mp hnd).2]

theorem colKeyColumns_append (rows : List ColumnGrantRow) (g : ColumnGrantRow)
    (k : String) :
    colKeyColumns (rows ++ [g]) k =
      if colGrantKey g = k then
        (if g.column_name ∈ colKeyColumns rows k then colKeyColumns rows k
         else colKeyColumns rows k ++ [g.column_name])
      else colKeyColumns rows k := by
  unfold colKeyColumns
  rw [List.filter_append, List.map_append]
  by_cases hk : colGrantKey g = k
  · rw [if_pos hk]
    have hfil : List.filter (fun g' => colGrantKey g' = k) [g] = [g] := by
      simp [hk]
    rw [hfil]
    simp only [List.map_cons, List.map_nil]
    rw [jsSet_append_singleton]
  · rw [if_neg hk]
    have hfil : List.filter (fun g' => colGrantKey g' = k) [g] = [] := by
      simp [hk]
    rw [hfil]
    simp

theorem colGrantGroups_eq (rows : List ColumnGrantRow) :
    colGrantGroups rows =
      (jsSet (rows.map colGrantKey)).map (fun k => (k, colKeyColumns rows k)) := by
  induction rows using List.reverseRecOn with
  | nil => rfl
  | append_singleton rs g ih =>
    rw [colGrantGroups_append, ih]
    have hmap : List.map colGrantKey (rs ++ [g]) =
        List.map colGrantKey rs ++ [colGrantKey g] := by simp
    rw [hmap, jsSet_append_singleton]
    by_cases hmem : colGrantKey g ∈ jsSet (rs.map colGrantKey)
    · rw [if_pos hmem]
      rw [insertColGrant_update _ _ _ _ hmem (jsSet_nodup _)]
      apply List.map_congr_left
      intro k hk
      rw [colKeyColumns_append]
      by_cases hkg : colGrantKey g = k
      · rw [if_pos hkg, if_pos hkg.symm]
      · rw [if_neg hkg, if_neg (fun h => hkg h.symm)]
    · rw [if_neg hmem]
      rw [insertColGrant_fresh _ _ _ ?keyfresh]
      case keyfresh =>
        intro hc
        apply hmem
        rw [List.map_map] at hc
        simpa using hc
      have hmem' : colGrantKey g ∉ rs.map colGrantKey :=
        fun h => hmem (mem_jsSet.mpr h)
      rw [List.map_append]
      congr 1
      · apply List.map_congr_left
        intro k hk
        have hk' : k ∈ rs.map colGrantKey := mem_jsSet.mp hk
        rw [colKeyColumns_append]
        rw [if_neg (fun he => hmem' (by rw [← he] at hk'; exact (he ▸ hk')))]
      · simp only [List.map_cons, List.map_nil]
        have hcols : colKeyColumns (rs ++ [g]) (colGrantKey g) = [g.column_name] := by
          rw [colKeyColumns_append, if_pos rfl]
          have hnil : colKeyColumns rs (colGrantKey g) = [] := by
            unfold colKeyColumns
            have hfil : rs.filter (fun g' => colGrantKey g' = colGrantKey g) = [] := by
              rw [List.filter_eq_nil_iff]
              intro r hr
              simp only [decide_eq_true_eq]
              intro he
              exact hmem' (he ▸ List.mem_map_of_mem colGrantKey hr)
            rw [hfil]
            rfl
          rw [hnil]
          simp
        rw [hcols]

theorem splitCharAux_no_sep {sep : Char} :
    ∀ (l acc : List Char), sep ∉ l → splitCharAux sep l acc = [acc.reverse ++ l] := by
  intro l
  induction l with
  | nil => intro acc _; simp [splitCharAux]
  | cons c cs ih =>
    intro acc h
    simp only [List.mem_cons, not_or] at h
    unfold splitCharAux
    rw [if_neg (fun he => h.1 he.symm)]
    rw [ih (c :: acc) h.2]
    simp

theorem splitCharAux_sep_split {sep : Char} :
    ∀ (l rest acc : List Char), sep ∉ l →
      splitCharAux sep (l ++ sep :: rest) acc =
        (acc.reverse ++ l) :: splitCharAux sep rest [] := by
  intro l
  induction l with
  | nil =>
    intro rest acc _
    simp only [List.nil_append]
    conv_lhs => rw [splitCharAux]
    rw [if_pos rfl]
    simp
  | cons c cs ih =>
    intro rest acc h
    simp only [List.mem_cons, not_or] at h
    simp only [List.cons_append]
    conv_lhs => rw [splitCharAux]
    rw [if_neg (fun he => h.1 he.symm)]
    rw [ih rest (c :: acc) h.2]
    simp

theorem str_mk_data (s : String) : String.mk s.data = s := rfl

theorem colGrantKey_data (g : ColumnGrantRow) :
    (colGrantKey g).data =
      g.grantee.data ++ ':' :: (g.privilege.data ++ ':' ::
        (if g.is_grantable then ("true" : String) else "false").data) := by
  have hcolon : (":" : String).data = [':'] := rfl
  cases hb : g.is_grantable <;> simp [colGrantKey, String.data_append, hcolon, hb]

theorem boolStr_no_colon (b : Bool) :
    ':' ∉ (if b then ("true" : String) else "false").data := by
  cases b <;> decide

theorem splitChar_colGrantKey (g : ColumnGrantRow) (h : colonFreeGrant g) :
    splitChar ':' (colGrantKey g) =
      [g.grantee, g.privilege, if g.is_grantable then "true" else "false"] := by
  unfold splitChar
  rw [colGrantKey_data]
  rw [splitCharAux_sep_split _ _ _ h.1]
  rw [splitCharAux_sep_split _ _ _ h.2]
  rw [splitCharAux_no_sep _ _ (boolStr_no_colon g.is_grantable)]
  simp only [List.reverse_nil, List.nil_append, List.map_cons, List.map_nil,
    str_mk_data]

theorem colGrantKey_eq_iff {g g' : ColumnGrantRow} (h1 : colonFreeGrant g)
    (h2 : colonFreeGrant g') :
    colGrantKey g = colGrantKey g' ↔ colGrantTriple g = colGrantTriple g' := by
  constructor
  · intro h
    have hs := congrArg (splitChar ':') h
    rw [splitChar_colGrantKey g h1, splitChar_colGrantKey g' h2] at hs
    simp only [List.cons.injEq, and_true] at hs
    obtain ⟨e1, e2, e3⟩ := hs
    have eb : g.is_grantable = g'.is_grantable := by
      by_contra hne
      cases hb : g.is_grantable <;> cases hb' : g'.is_grantable <;>
        rw [hb, hb'] at e3 <;> simp_all
    unfold colGrantTriple
    rw [e1, e2, eb]
  · intro h
    simp only [colGrantTriple, Prod.mk.injEq] at h
    obtain ⟨e1, e2, e3⟩ := h
    unfold colGrantKey
    rw [e1, e2, e3]

theorem colGrantStmt_decode (schema tableName : String) (g : ColumnGrantRow)
    (cols : List String) (h : colonFreeGrant g) :
    colGrantStmt schema tableName (colGrantKey g, cols) =
      "GRANT " ++ g.privilege ++ " (" ++
        String.intercalate ", " (cols.map escapeIdent) ++ ") ON TABLE " ++
        schema ++ "." ++ tableName ++ " TO " ++ escapeIdent g.grantee ++
        (if g.is_grantable then " WITH GRANT OPTION" else "") ++ ";" := by
  unfold colGrantStmt
  rw [splitChar_colGrantKey g h]
  cases hb : g.is_grantable <;> simp [hb]

/-- Claim C5 counterexample: the grouping key is the string
`grantee + ":" + privilege + ":" + is_grantable` and is later split on `":"`
again, so a grantee containing a colon is mis-parsed: for the single row with
grantee `"a:p"` and privilege `"q"`, the code emits `GRANT p (c) … TO a;`
instead of the claimed one-statement-per-combination `GRANT q (c) … TO a:p;`. -/
theorem generateColumnGrantsSQL_colon_counterexample :
    generateColumnGrantsSQL "app" "t" [⟨"c", "o", "a:p", "q", false⟩] =
      ["GRANT p (c) ON TABLE app.t TO a;"] ∧
    claimColGrantStmt "app" "t" [⟨"c", "o", "a:p", "q", false⟩] ("a:p", "q", false) =
      "GRANT q (c) ON TABLE app.t TO a:p;" ∧
    ("GRANT p (c) ON TABLE app.t TO a;" : String) ≠
      "GRANT q (c) ON TABLE app.t TO a:p;" := by
  exact ⟨by decide, by decide, by decide⟩

/-- Claim C5 (amended): provided no grantee or privilege contains a colon,
`generateColumnGrantsSQL` emits exactly one `GRANT` statement per distinct
`(grantee, privilege, is_grantable)` combination; the statement for a
combination lists each column granted under it exactly once (first-occurrence
order) and carries `WITH GRANT OPTION` exactly when `is_grantable` is true. -/
theorem generateColumnGrantsSQL_grouped (schema tableName : String)
    (rows : List ColumnGrantRow) (hc : ∀ g ∈ rows, colonFreeGrant g) :
    generateColumnGrantsSQL schema tableName rows =
      (colGrantGroups rows).map (colGrantStmt schema tableName) ∧
    ((colGrantGroups rows).map Prod.fst).Nodup ∧
    (∀ k, k ∈ (colGrantGroups rows).map Prod.fst ↔ k ∈ rows.map colGrantKey) ∧
    (generateColumnGrantsSQL schema tableName rows).length =
      (jsSet (rows.map colGrantKey)).length ∧
    (∀ g ∈ rows, ∀ g' ∈ rows,
      (colGrantKey g = colGrantKey g' ↔ colGrantTriple g = colGrantTriple g')) ∧
    (∀ g ∈ rows, claimColGrantStmt schema tableName rows (colGrantTriple g) ∈
      generateColumnGrantsSQL schema tableName rows) ∧
    (∀ t, (claimGroupColumns rows t).Nodup) := by
  have hgr := colGrantGroups_eq rows
  have hcomp : (Prod.fst ∘ fun k => (k, colKeyColumns rows k)) = (id : String → String) := rfl
  refine ⟨rfl, ?_, ?_, ?_, ?_, ?_, fun t => jsSet_nodup _⟩
  · rw [hgr, List.map_map, hcomp, List.map_id]
    exact jsSet_nodup _
  · intro k
    rw [hgr, List.map_map, hcomp, List.map_id]
    exact mem_jsSet
  · unfold generateColumnGrantsSQL
    rw [List.length_map, hgr, List.length_map]
  · intro g hg g' hg'
    exact colGrantKey_eq_iff (hc g hg) (hc g' hg')
  · intro g hg
    have hkmem : colGrantKey g ∈ jsSet (rows.map colGrantKey) :=
      mem_jsSet.mpr (List.mem_map_of_mem _ hg)
    have hent : (colGrantKey g, colKeyColumns rows (colGrantKey g)) ∈
        colGrantGroups rows := by
      rw [hgr]
      exact List.mem_map_of_mem _ hkmem
    have hstmt : colGrantStmt schema tableName
        (colGrantKey g, colKeyColumns rows (colGrantKey g)) ∈
        generateColumnGrantsSQL schema tableName rows :=
      List.mem_map_of_mem _ hent
    have hcols : colKeyColumns rows (colGrantKey g) =
        claimGroupColumns rows (colGrantTriple g) := by
      unfold colKeyColumns claimGroupColumns
      congr 2
      apply List.filter_congr
      intro g' hg'
      by_cases he : colGrantKey g' = colGrantKey g
      · simp [he, (colGrantKey_eq_iff (hc g' hg') (hc g hg)).mp he]
      · have hnt : ¬colGrantTriple g' = colGrantTriple g :=
          fun hx => he ((colGrantKey_eq_iff (hc g' hg') (hc g hg)).mpr hx)
        simp [he, hnt]
    rw [colGrantStmt_decode schema tableName g _ (hc g hg), hcols] at hstmt
    exact hstmt

/-- Witness for `generateColumnGrantsSQL_grouped` at a concrete input. -/
theorem generateColumnGrantsSQL_grouped_witness :
    claimColGrantStmt "app" "t"
        [⟨"c1", "o", "r", "SELECT", false⟩, ⟨"c2", "o", "r", "SELECT", false⟩]
        (colGrantTriple ⟨"c1", "o", "r", "SELECT", false⟩) ∈
      generateColumnGrantsSQL "app" "t"
        [⟨"c1", "o", "r", "SELECT", false⟩, ⟨"c2", "o", "r", "SELECT", false⟩] :=
  ((generateColumnGrantsSQL_grouped "app" "t"
      [⟨"c1", "o", "r", "SELECT", false⟩, ⟨"c2", "o", "r", "SELECT", false⟩]
      (by decide)).2.2.2.2.2.1)
    ⟨"c1", "o", "r", "SELECT", false⟩ (by decide)

/-- Witness for `generatePoliciesSQL_spec` at a concrete input. -/
theorem generatePoliciesSQL_spec_witness :
    renderPolicy "s" "t"
        ⟨"p", "SELECT", some ["r1"], "RESTRICTIVE", some "x", some "y"⟩ ∈
      generatePoliciesSQL "s" "t" true false
        [⟨"p", "SELECT", some ["r1"], "RESTRICTIVE", some "x", some "y"⟩] :=
  ((generatePoliciesSQL_spec "s" "t" true false
      [⟨"p", "SELECT", some ["r1"], "RESTRICTIVE", some "x", some "y"⟩]).2.2.2.2.1)
    ⟨"p", "SELECT", some ["r1"], "RESTRICTIVE", some "x", some "y"⟩ (by decide)

/-! ## C4: cleanup section precedes the recreation section -/

theorem headIs_unique {l : String} {c c' : Char} (h : headIs l c)
    (h' : headIs l c') : c = c' := by
  unfold headIs at h h'
  rw [h] at h'
  exact Option.some.inj h'

theorem not_headIs_empty (c : Char) : ¬ headIs "" c := by
  intro h
  exact Option.noConfusion h

theorem headIs_ne_empty {b : String} {c : Char} (hb : headIs b c) : b ≠ "" :=
  fun he => not_headIs_empty c (he ▸ hb)

theorem mem_ite_nil {α : Type} {c : Prop} [Decidable c] {L : List α} {x : α}
    (h : x ∈ if c then L else []) : x ∈ L := by
  by_cases hc : c
  · rwa [if_pos hc] at h
  · rw [if_neg hc] at h
    cases h

theorem revokeStmt_headIs (schema tableName g : String) :
    headIs (revokeStmt schema tableName g) 'R' := by
  unfold revokeStmt
  repeat apply headIs_append
  rfl

theorem dropPolicyStmt_headIs (schema tableName n : String) :
    headIs (dropPolicyStmt schema tableName n) 'D' := by
  unfold dropPolicyStmt
  repeat apply headIs_append
  rfl

theorem dropTriggerStmt_headIs (schema tableName n : String) :
    headIs (dropTriggerStmt schema tableName n) 'D' := by
  unfold dropTriggerStmt
  repeat apply headIs_append
  rfl

theorem disableRlsStmt_headIs (schema tableName : String) :
    headIs (disableRlsStmt schema tableName) 'A' := by
  unfold disableRlsStmt
  repeat apply headIs_append
  rfl

theorem grantStmt_headIs (schema tableName : String) (g : GrantRow) :
    headIs (grantStmt schema tableName g) 'G' := by
  unfold grantStmt
  repeat apply headIs_append
  rfl

theorem colGrantStmt_headIs (schema tableName : String)
    (entry : String × List String) :
    headIs (colGrantStmt schema tableName entry) 'G' := by
  simp only [colGrantStmt]
  repeat apply headIs_append
  rfl

theorem renderTriggerGroup_headIs (schema tableName : String) (g : TriggerGroup) :
    headIs (renderTriggerGroup schema tableName g) 'C' := by
  unfold renderTriggerGroup
  repeat apply headIs_append
  rfl

theorem columnDocLine_headIs (col : ColumnInfo) :
    headIs (columnDocLine col) ' ' := by
  unfold columnDocLine
  repeat apply headIs_append
  rfl

theorem lit_append_headIs {lit : String} (r : String) {c : Char}
    (h : headIs lit c) : headIs (lit ++ r) c :=
  headIs_append r h

theorem docSection_head {β : Type} (hdr : String) (hh : headIs hdr ' ')
    (f : β → String) (hf : ∀ b, headIs (f b) ' ') (xs : List β) :
    ∀ l ∈ ([hdr] ++ xs.map f ++ [""]), headIs l ' ' ∨ l = "" := by
  intro l hl
  rcases List.mem_append.mp hl with hl | hl
  · rcases List.mem_append.mp hl with hl | hl
    · rw [List.mem_singleton] at hl
      subst hl
      exact Or.inl hh
    · obtain ⟨b, _, rfl⟩ := List.mem_map.mp hl
      exact Or.inl (hf b)
  · rw [List.mem_singleton] at hl
    exact Or.inr hl

theorem constraintDocLines_head (constraints : List ConstraintInfo) :
    ∀ l ∈ constraintDocLines constraints, headIs l ' ' ∨ l = "" := by
  unfold constraintDocLines
  intro l hl
  rcases List.mem_append.mp hl with hl | hl
  · rcases List.mem_append.mp hl with hl | hl
    · rcases List.mem_append.mp hl with hl | hl
      · exact docSection_head "  PRIMARY KEY:" rfl _
          (fun b => by repeat apply headIs_append; rfl) _ l (mem_ite_nil hl)
      · exact docSection_head "  FOREIGN KEYS:" rfl _
          (fun b => by repeat apply headIs_append; rfl) _ l (mem_ite_nil hl)
    · exact docSection_head "  UNIQUE CONSTRAINTS:" rfl _
        (fun b => by repeat apply headIs_append; rfl) _ l (mem_ite_nil hl)
  · exact docSection_head "  CHECK CONSTRAINTS:" rfl _
      (fun b => by repeat apply headIs_append; rfl) _ l (mem_ite_nil hl)

theorem docLines_head (schema tableName : String) (cols : List ColumnInfo)
    (constraints : List ConstraintInfo) (cmt : Option String) :
    ∀ l ∈ generateSchemaDocumentation schema tableName cols constraints cmt,
      headIs l ' ' ∨ headIs l '/' ∨ headIs l '*' ∨ l = "" := by
  unfold generateSchemaDocumentation
  intro l hl
  rcases List.mem_append.mp hl with hl | hl
  · rcases List.mem_append.mp hl with hl | hl
    · rcases List.mem_append.mp hl with hl | hl
      · rcases List.mem_append.mp hl with hl | hl
        · -- the four leading lines
          rcases List.mem_cons.mp hl with rfl | hl
          · exact Or.inr (Or.inr (Or.inr rfl))
          rcases List.mem_cons.mp hl with rfl | hl
          · exact Or.inr (Or.inl rfl)
          rcases List.mem_cons.mp hl with rfl | hl
          · exact Or.inl (by repeat apply headIs_append; rfl)
          rcases List.mem_cons.mp hl with rfl | hl
          · exact Or.inl (by apply headIs_append; rfl)
          cases hl
        · -- table comment block
          have hl' := mem_ite_nil hl
          rcases List.mem_cons.mp hl' with rfl | hl'
          · exact Or.inl (by apply headIs_append; rfl)
          rcases List.mem_cons.mp hl' with rfl | hl'
          · exact Or.inr (Or.inr (Or.inr rfl))
          cases hl'
      · -- columns block
        have hl' := mem_ite_nil hl
        rcases List.mem_append.mp hl' with hl' | hl'
        · rcases List.mem_append.mp hl' with hl' | hl'
          · rcases List.mem_cons.mp hl' with rfl | hl'
            · exact Or.inl rfl
            rcases List.mem_cons.mp hl' with rfl | hl'
            · exact Or.inl rfl
            cases hl'
          · obtain ⟨col, _, rfl⟩ := List.mem_map.mp hl'
            exact Or.inl (columnDocLine_headIs col)
        · rw [List.mem_singleton] at hl'
          exact Or.inr (Or.inr (Or.inr hl'))
    · -- constraints block
      have hl' := mem_ite_nil hl
      rcases constraintDocLines_head constraints l hl' with h | h
      · exact Or.inl h
      · exact Or.inr (Or.inr (Or.inr h))
  · -- closing lines
    rcases List.mem_cons.mp hl with rfl | hl
    · exact Or.inr (Or.inr (Or.inl rfl))
    rcases List.mem_cons.mp hl with rfl | hl
    · exact Or.inr (Or.inr (Or.inr rfl))
    cases hl

theorem headIs_imp_not {l : String} {c c' : Char} (h : headIs l c)
    (hne : c ≠ c') : ¬ headIs l c' :=
  fun h' => hne (headIs_unique h h')

theorem tableHeader_head (schema tableName : String) (b : Bool) (now : String) :
    ∀ l ∈ tableHeader schema tableName b now, headIs l '-' ∨ l = "" := by
  unfold tableHeader
  intro l hl
  rcases List.mem_append.mp hl with hl | hl
  · rcases List.mem_append.mp hl with hl | hl
    · rcases List.mem_cons.mp hl with rfl | hl
      · exact Or.inl rfl
      rcases List.mem_cons.mp hl with rfl | hl
      · exact Or.inl (by apply headIs_append; rfl)
      rcases List.mem_cons.mp hl with rfl | hl
      · exact Or.inl rfl
      cases hl
    · have hl' := mem_ite_nil hl
      rw [List.mem_singleton] at hl'
      subst hl'
      exact Or.inl (by apply headIs_append; rfl)
  · rcases List.mem_cons.mp hl with rfl | hl
    · exact Or.inl rfl
    rcases List.mem_cons.mp hl with rfl | hl
    · exact Or.inr rfl
    cases hl

theorem tableCleanup_head (schema : String) (td : TableData) :
    ∀ l ∈ tableCleanup schema td,
      headIs l '-' ∨ l = "" ∨ headIs l 'D' ∨ headIs l 'R' ∨ headIs l 'A' := by
  unfold tableCleanup
  intro l hl
  rcases List.mem_append.mp hl with hl | hl
  · rcases List.mem_append.mp hl with hl | hl
    · rcases List.mem_append.mp hl with hl | hl
      · rcases List.mem_append.mp hl with hl | hl
        · -- leading comment lines
          rcases List.mem_cons.mp hl with rfl | hl
          · exact Or.inl rfl
          rcases List.mem_cons.mp hl with rfl | hl
          · exact Or.inl rfl
          rcases List.mem_cons.mp hl with rfl | hl
          · exact Or.inr (Or.inl rfl)
          cases hl
        · -- drop policies
          have hl' := mem_ite_nil hl
          rcases List.mem_append.mp hl' with hl' | hl'
          · obtain ⟨p, _, rfl⟩ := List.mem_map.mp hl'
            exact Or.inr (Or.inr (Or.inl (dropPolicyStmt_headIs _ _ _)))
          · rw [List.mem_singleton] at hl'
            exact Or.inr (Or.inl hl')
      · -- drop triggers
        have hl' := mem_ite_nil hl
        rcases List.mem_append.mp hl' with hl' | hl'
        · obtain ⟨n, _, rfl⟩ := List.mem_map.mp hl'
          exact Or.inr (Or.inr (Or.inl (dropTriggerStmt_headIs _ _ _)))
        · rw [List.mem_singleton] at hl'
          exact Or.inr (Or.inl hl')
    · -- revoke block
      have hl' := mem_ite_nil hl
      rcases List.mem_cons.mp hl' with rfl | hl'
      · exact Or.inl rfl
      rcases List.mem_append.mp hl' with hl' | hl'
      · obtain ⟨g, _, rfl⟩ := List.mem_map.mp hl'
        exact Or.inr (Or.inr (Or.inr (Or.inl (revokeStmt_headIs _ _ _))))
      · rw [List.mem_singleton] at hl'
        exact Or.inr (Or.inl hl')
  · -- disable RLS
    have hl' := mem_ite_nil hl
    rcases List.mem_cons.mp hl' with rfl | hl'
    · exact Or.inr (Or.inr (Or.inr (Or.inr (disableRlsStmt_headIs _ _))))
    rcases List.mem_cons.mp hl' with rfl | hl'
    · exact Or.inr (Or.inl rfl)
    cases hl'

theorem tableRecreation_head (schema : String) (td : TableData) :
    ∀ l ∈ tableRecreation schema td,
      headIs l '-' ∨ l = "" ∨ headIs l 'G' ∨ headIs l 'C' ∨
      (l = enableRlsStmt schema td.table ∨ l = forceRlsStmt schema td.table) ∨
      headIs l '/' ∨ headIs l '*' ∨ headIs l ' ' := by
  unfold tableRecreation
  intro l hl
  rcases List.mem_append.mp hl with hl | hl
  · rcases List.mem_append.mp hl with hl | hl
    · rcases List.mem_append.mp hl with hl | hl
      · rcases List.mem_append.mp hl with hl | hl
        · rcases List.mem_append.mp hl with hl | hl
          · -- leading comment lines
            rcases List.mem_cons.mp hl with rfl | hl
            · exact Or.inl rfl
            rcases List.mem_cons.mp hl with rfl | hl
            · exact Or.inl rfl
            rcases List.mem_cons.mp hl with rfl | hl
            · exact Or.inr (Or.inl rfl)
            cases hl
          · -- table-level grants
            have hl' := mem_ite_nil hl
            rcases List.mem_cons.mp hl' with rfl | hl'
            · exact Or.inl rfl
            rcases List.mem_append.mp hl' with hl' | hl'
            · unfold generateGrantsSQL at hl'
              obtain ⟨g, _, rfl⟩ := List.mem_map.mp hl'
              exact Or.inr (Or.inr (Or.inl (grantStmt_headIs _ _ _)))
            · rw [List.mem_singleton] at hl'
              exact Or.inr (Or.inl hl')
        · -- column-level grants
          have hl' := mem_ite_nil hl
          rcases List.mem_cons.mp hl' with rfl | hl'
          · exact Or.inl rfl
          rcases List.mem_append.mp hl' with hl' | hl'
          · unfold generateColumnGrantsSQL at hl'
            obtain ⟨e, _, rfl⟩ := List.mem_map.mp hl'
            exact Or.inr (Or.inr (Or.inl (colGrantStmt_headIs _ _ _)))
          · rw [List.mem_singleton] at hl'
            exact Or.inr (Or.inl hl')
      · -- RLS policies
        have hl' := mem_ite_nil hl
        rcases List.mem_cons.mp hl' with rfl | hl'
        · exact Or.inl rfl
        rcases List.mem_append.mp hl' with hl' | hl'
        · rcases mem_generatePoliciesSQL hl' with ⟨_, rfl⟩ | ⟨_, rfl⟩ | ⟨p, _, rfl⟩
          · exact Or.inr (Or.inr (Or.inr (Or.inr (Or.inl (Or.inl rfl)))))
          · exact Or.inr (Or.inr (Or.inr (Or.inr (Or.inl (Or.inr rfl)))))
          · exact Or.inr (Or.inr (Or.inr (Or.inl (renderPolicy_headIs _ _ _))))
        · rw [List.mem_singleton] at hl'
          exact Or.inr (Or.inl hl')
    · -- triggers
      have hl' := mem_ite_nil hl
      rcases List.mem_cons.mp hl' with rfl | hl'
      · exact Or.inl rfl
      rcases List.mem_append.mp hl' with hl' | hl'
      · unfold generateTriggersSQL at hl'
        obtain ⟨g, _, rfl⟩ := List.mem_map.mp hl'
        exact Or.inr (Or.inr (Or.inr (Or.inl (renderTriggerGroup_headIs _ _ _))))
      · rw [List.mem_singleton] at hl'
        exact Or.inr (Or.inl hl')
  · -- documentation
    rcases docLines_head schema td.table td.columns td.constraints td.comment l hl with
      h | h | h | h
    · exact Or.inr (Or.inr (Or.inr (Or.inr (Or.inr (Or.inr (Or.inr h))))))
    · exact Or.inr (Or.inr (Or.inr (Or.inr (Or.inr (Or.inl h)))))
    · exact Or.inr (Or.inr (Or.inr (Or.inr (Or.inr (Or.inr (Or.inl h))))))
    · exact Or.inr (Or.inl h)

theorem revokeStmt_injective (schema tableName : String) :
    Function.Injective (revokeStmt schema tableName) := by
  intro a b h
  unfold revokeStmt at h
  exact escapeIdent_injective (str_append_right_cancel (str_append_left_cancel h))

theorem count_eq_zero_of_forall_ne {l : List String} {x : String}
    (h : ∀ y ∈ l, y ≠ x) : l.count x = 0 :=
  List.count_eq_zero.mpr (fun hm => h x hm rfl)

theorem mem_allGrantees_iff (td : TableData) (gr : String) :
    gr ∈ allGrantees td ↔
      (gr ∈ td.rbac.table_grants.map GrantRow.grantee ∨
        gr ∈ td.rbac.column_grants.map ColumnGrantRow.grantee) := by
  unfold allGrantees
  rw [mem_jsSet, List.mem_append, mem_jsSet, mem_jsSet]

theorem count_zero_of_classes {L : List String} {x : String} {cx : Char}
    (hx : headIs x cx)
    (h : ∀ l ∈ L, (∃ c, headIs l c ∧ c ≠ cx) ∨ l = "") : L.count x = 0 := by
  apply count_eq_zero_of_forall_ne
  intro y hy
  rcases h y hy with ⟨c, hc, hne⟩ | rfl
  · exact ne_of_headIs hc hx hne
  · exact (headIs_ne_empty hx).symm

theorem count_revoke_cleanup (schema : String) (td : TableData) (g : String)
    (hg : g ∈ allGrantees td) :
    (tableCleanup schema td).count (revokeStmt schema td.table g) = 1 := by
  have hcond : td.rbac.table_grants.length > 0 ∨ td.rbac.column_grants.length > 0 := by
    rcases (mem_allGrantees_iff td g).mp hg with h | h
    · left
      have hlen := List.length_pos.mpr (List.ne_nil_of_mem h)
      simpa using hlen
    · right
      have hlen := List.length_pos.mpr (List.ne_nil_of_mem h)
      simpa using hlen
  have hR : headIs (revokeStmt schema td.table g) 'R' := revokeStmt_headIs _ _ _
  unfold tableCleanup
  rw [List.count_append, List.count_append, List.count_append, List.count_append]
  have h1 : List.count (revokeStmt schema td.table g)
      ["-- 🧹 Cleanup Section (for idempotency)",
       "-- =======================================", ""] = 0 := by
    apply count_zero_of_classes hR
    intro l hl
    rcases List.mem_cons.mp hl with rfl | hl
    · exact Or.inl ⟨'-', rfl, by decide⟩
    rcases List.mem_cons.mp hl with rfl | hl
    · exact Or.inl ⟨'-', rfl, by decide⟩
    rcases List.mem_cons.mp hl with rfl | hl
    · exact Or.inr rfl
    cases hl
  have h2 : List.count (revokeStmt schema td.table g)
      (if td.rls.policies.length > 0 then
        td.rls.policies.map (fun p => dropPolicyStmt schema td.table p.policy) ++ [""]
      else []) = 0 := by
    apply count_zero_of_classes hR
    intro l hl
    have hl' := mem_ite_nil hl
    rcases List.mem_append.mp hl' with hl' | hl'
    · obtain ⟨p, _, rfl⟩ := List.mem_map.mp hl'
      exact Or.inl ⟨'D', dropPolicyStmt_headIs _ _ _, by decide⟩
    · rw [List.mem_singleton] at hl'
      exact Or.inr hl'
  have h3 : List.count (revokeStmt schema td.table g)
      (if td.triggers.length > 0 then
        (jsSet (td.triggers.map TriggerRow.trigger_name)).map
          (fun n => dropTriggerStmt schema td.table n) ++ [""]
      else []) = 0 := by
    apply count_zero_of_classes hR
    intro l hl
    have hl' := mem_ite_nil hl
    rcases List.mem_append.mp hl' with hl' | hl'
    · obtain ⟨n, _, rfl⟩ := List.mem_map.mp hl'
      exact Or.inl ⟨'D', dropTriggerStmt_headIs _ _ _, by decide⟩
    · rw [List.mem_singleton] at hl'
      exact Or.inr hl'
  have h5 : List.count (revokeStmt schema td.table g)
      (if td.rls.enabled = true then [disableRlsStmt schema td.table, ""] else []) = 0 := by
    apply count_zero_of_classes hR
    intro l hl
    have hl' := mem_ite_nil hl
    rcases List.mem_cons.mp hl' with rfl | hl'
    · exact Or.inl ⟨'A', disableRlsStmt_headIs _ _, by decide⟩
    rcases List.mem_cons.mp hl' with rfl | hl'
    · exact Or.inr rfl
    cases hl'
  have h4 : List.count (revokeStmt schema td.table g)
      (if td.rbac.table_grants.length > 0 ∨ td.rbac.column_grants.length > 0 then
        ["-- Revoke existing grants"] ++
          (allGrantees td).map (fun gr => revokeStmt schema td.table gr) ++ [""]
      else []) = 1 := by
    rw [if_pos hcond]
    rw [List.count_append, List.count_append]
    have hz1 : List.count (revokeStmt schema td.table g)
        ["-- Revoke existing grants"] = 0 := by
      apply count_zero_of_classes hR
      intro l hl
      rcases List.mem_cons.mp hl with rfl | hl
      · exact Or.inl ⟨'-', rfl, by decide⟩
      cases hl
    have hz2 : List.count (revokeStmt schema td.table g) [""] = 0 := by
      apply count_zero_of_classes hR
      intro l hl
      rcases List.mem_cons.mp hl with rfl | hl
      · exact Or.inr rfl
      cases hl
    have hm : List.count (revokeStmt schema td.table g)
        ((allGrantees td).map (fun gr => revokeStmt schema td.table gr)) = 1 := by
      rw [List.count_map_of_injective _ _ (revokeStmt_injective schema td.table)]
      exact List.count_eq_one_of_mem (jsSet_nodup _) hg
    rw [hz1, hz2, hm]
  rw [h1, h2, h3, h4, h5]

/-- Claim C4: every table file is a cleanup section followed by a recreation
section: the lines of the file are header ++ cleanup ++ recreation; the
cleanup section contains a `DROP POLICY IF EXISTS` for every policy, a
`DROP TRIGGER IF EXISTS` for every distinct trigger name, exactly one
`REVOKE ALL … FROM` per distinct grantee of the table- or column-level
grants (counted over the whole file), and the `DISABLE ROW LEVEL SECURITY`
statement when RLS is enabled; and no `GRANT`/`CREATE …` statement (lines
starting with `G`/`C`) occurs before the recreation section, while the
recreation section contains none of the cleanup statements (no line starts
with `D` or `R`, and none equals the disable statement). -/
theorem generateTableSQL_cleanup_first (schema : String) (td : TableData)
    (now : String) :
    tableSections schema td false now =
      tableHeader schema td.table false now ++ tableCleanup schema td ++
        tableRecreation schema td ∧
    generateTableSQL schema td none false now =
      String.intercalate "\n" (tableSections schema td false now) ∧
    (∀ gr, gr ∈ allGrantees td ↔
      (gr ∈ td.rbac.table_grants.map GrantRow.grantee ∨
        gr ∈ td.rbac.column_grants.map ColumnGrantRow.grantee)) ∧
    (∀ p ∈ td.rls.policies,
      dropPolicyStmt schema td.table p.policy ∈ tableCleanup schema td) ∧
    (∀ tr ∈ td.triggers,
      dropTriggerStmt schema td.table tr.trigger_name ∈ tableCleanup schema td) ∧
    (∀ g ∈ allGrantees td,
      (tableSections schema td false now).count (revokeStmt schema td.table g) = 1) ∧
    (td.rls.enabled = true → disableRlsStmt schema td.table ∈ tableCleanup schema td) ∧
    (∀ l ∈ tableHeader schema td.table false now ++ tableCleanup schema td,
      ¬ headIs l 'G' ∧ ¬ headIs l 'C') ∧
    (∀ l ∈ tableRecreation schema td,
      ¬ headIs l 'D' ∧ ¬ headIs l 'R' ∧ l ≠ disableRlsStmt schema td.table) := by
  refine ⟨rfl, rfl, mem_allGrantees_iff td, ?_, ?_, ?_, ?_, ?_, ?_⟩
  · intro p hp
    have hlen : td.rls.policies.length > 0 :=
      List.length_pos.mpr (List.ne_nil_of_mem hp)
    unfold tableCleanup
    refine List.mem_append.mpr (Or.inl (List.mem_append.mpr (Or.inl
      (List.mem_append.mpr (Or.inl (List.mem_append.mpr (Or.inr ?_)))))))
    rw [if_pos hlen]
    exact List.mem_append.mpr (Or.inl (List.mem_map_of_mem _ hp))
  · intro tr htr
    have hlen : td.triggers.length > 0 :=
      List.length_pos.mpr (List.ne_nil_of_mem htr)
    unfold tableCleanup
    refine List.mem_append.mpr (Or.inl (List.mem_append.mpr (Or.inl
      (List.mem_append.mpr (Or.inr ?_)))))
    rw [if_pos hlen]
    refine List.mem_append.mpr (Or.inl ?_)
    exact List.mem_map_of_mem _ (mem_jsSet.mpr (List.mem_map_of_mem _ htr))
  · intro g hg
    unfold tableSections
    rw [List.count_append, List.count_append]
    have hR := revokeStmt_headIs schema td.table g
    have hh : (tableHeader schema td.table false now).count
        (revokeStmt schema td.table g) = 0 := by
      apply count_zero_of_classes hR
      intro l hl
      rcases tableHeader_head schema td.table false now l hl with h | h
      · exact Or.inl ⟨'-', h, by decide⟩
      · exact Or.inr h
    have hr : (tableRecreation schema td).count (revokeStmt schema td.table g) = 0 := by
      apply count_zero_of_classes hR
      intro l hl
      rcases tableRecreation_head schema td l hl with h | h | h | h | h | h | h | h
      · exact Or.inl ⟨'-', h, by decide⟩
      · exact Or.inr h
      · exact Or.inl ⟨'G', h, by decide⟩
      · exact Or.inl ⟨'C', h, by decide⟩
      · rcases h with rfl | rfl
        · exact Or.inl ⟨'A', enableRlsStmt_headIs _ _, by decide⟩
        · exact Or.inl ⟨'A', forceRlsStmt_headIs _ _, by decide⟩
      · exact Or.inl ⟨'/', h, by decide⟩
      · exact Or.inl ⟨'*', h, by decide⟩
      · exact Or.inl ⟨' ', h, by decide⟩
    rw [hh, hr, count_revoke_cleanup schema td g hg]
  · intro hen
    unfold tableCleanup
    refine List.mem_append.mpr (Or.inr ?_)
    rw [if_pos hen]
    exact List.mem_cons_self _ _
  · intro l hl
    rcases List.mem_append.mp hl with hl | hl
    · rcases tableHeader_head schema td.table false now l hl with h | rfl
      · exact ⟨headIs_imp_not h (by decide), headIs_imp_not h (by decide)⟩
      · exact ⟨not_headIs_empty _, not_headIs_empty _⟩
    · rcases tableCleanup_head schema td l hl with h | rfl | h | h | h
      · exact ⟨headIs_imp_not h (by decide), headIs_imp_not h (by decide)⟩
      · exact ⟨not_headIs_empty _, not_headIs_empty _⟩
      · exact ⟨headIs_imp_not h (by decide), headIs_imp_not h (by decide)⟩
      · exact ⟨headIs_imp_not h (by decide), headIs_imp_not h (by decide)⟩
      · exact ⟨headIs_imp_not h (by decide), headIs_imp_not h (by decide)⟩
  · intro l hl
    have hA := disableRlsStmt_headIs schema td.table
    rcases tableRecreation_head schema td l hl with h | rfl | h | h | h | h | h | h
    · exact ⟨headIs_imp_not h (by decide), headIs_imp_not h (by decide),
        ne_of_headIs h hA (by decide)⟩
    · exact ⟨not_headIs_empty _, not_headIs_empty _, (headIs_ne_empty hA).symm⟩
    · exact ⟨headIs_imp_not h (by decide), headIs_imp_not h (by decide),
        ne_of_headIs h hA (by decide)⟩
    · exact ⟨headIs_imp_not h (by decide), headIs_imp_not h (by decide),
        ne_of_headIs h hA (by decide)⟩
    · rcases h with rfl | rfl
      · refine ⟨headIs_imp_not (enableRlsStmt_headIs _ _) (by decide),
          headIs_imp_not (enableRlsStmt_headIs _ _) (by decide), ?_⟩
        unfold enableRlsStmt disableRlsStmt
        exact str_append_ne _ (by decide)
      · refine ⟨headIs_imp_not (forceRlsStmt_headIs _ _) (by decide),
          headIs_imp_not (forceRlsStmt_headIs _ _) (by decide), ?_⟩
        unfold forceRlsStmt disableRlsStmt
        exact str_append_ne _ (by decide)
    · exact ⟨headIs_imp_not h (by decide), headIs_imp_not h (by decide),
        ne_of_headIs h hA (by decide)⟩
    · exact ⟨headIs_imp_not h (by decide), headIs_imp_not h (by decide),
        ne_of_headIs h hA (by decide)⟩
    · exact ⟨headIs_imp_not h (by decide), headIs_imp_not h (by decide),
        ne_of_headIs h hA (by decide)⟩

/-- Witness for `generateTableSQL_cleanup_first` at a concrete `TableData`. -/
theorem generateTableSQL_cleanup_first_witness :
    dropPolicyStmt "app" "t" "p0" ∈
      tableCleanup "app"
        { table := "t"
          owner := "o"
          rls := ⟨true, false, [⟨"p0", "ALL", none, "PERMISSIVE", some "x", none⟩]⟩
          rbac := ⟨[⟨"o", "r", "SELECT", false⟩], []⟩
          triggers := []
          columns := []
          constraints := []
          comment := none } :=
  ((generateTableSQL_cleanup_first "app"
      { table := "t"
        owner := "o"
        rls := ⟨true, false, [⟨"p0", "ALL", none, "PERMISSIVE", some "x", none⟩]⟩
        rbac := ⟨[⟨"o", "r", "SELECT", false⟩], []⟩
        triggers := []
        columns := []
        constraints := []
        comment := none } "now").2.2.2.1)
    ⟨"p0", "ALL", none, "PERMISSIVE", some "x", none⟩ (by decide)

/-! ## C9: uniqueness of exported file paths -/

theorem digitsVal_append (l : List Char) (c : Char) :
    (l ++ [c]).foldl (fun v ch => 10 * v + (ch.toNat - 48)) 0 =
      10 * l.foldl (fun v ch => 10 * v + (ch.toNat - 48)) 0 + (c.toNat - 48) := by
  rw [List.foldl_append]
  rfl

theorem natDigitChar_val : ∀ n, n < 10 → (natDigitChar n).toNat - 48 = n := by
  decide

theorem natReprAux_val :
    ∀ (fuel n : Nat), n < fuel →
      (natReprAux fuel n).foldl (fun v ch => 10 * v + (ch.toNat - 48)) 0 = n := by
  intro fuel
  induction fuel with
  | zero => intro n h; omega
  | succ fuel ih =>
    intro n h
    by_cases h10 : n < 10
    · unfold natReprAux
      rw [if_pos h10]
      simp only [List.foldl_cons, List.foldl_nil]
      rw [natDigitChar_val n h10]
      omega
    · unfold natReprAux
      rw [if_neg h10]
      rw [digitsVal_append]
      have hdiv : n / 10 < fuel := by
        have := Nat.div_lt_self (by omega : 0 < n) (by omega : 1 < 10)
        omega
      rw [ih (n / 10) hdiv, natDigitChar_val (n % 10) (Nat.mod_lt n (by omega))]
      omega

theorem natToString_injective : Function.Injective natToString := by
  intro a b h
  have hd : natReprAux (a + 1) a = natReprAux (b + 1) b := congrArg String.data h
  have ha := natReprAux_val (a + 1) a (by omega)
  have hb := natReprAux_val (b + 1) b (by omega)
  rw [hd] at ha
  rw [ha] at hb
  exact hb

theorem funcSuffixPath_injective (out schema name : String) :
    Function.Injective (funcSuffixPath out schema name) := by
  intro k1 k2 h
  unfold funcSuffixPath at h
  have h1 := str_append_left_cancel h
  have h2 := str_append_left_cancel h1
  have h3 := str_append_left_cancel h2
  have h4 := str_append_right_cancel h3
  have h5 := str_append_left_cancel h4
  exact natToString_injective h5

theorem nodup_subset_length {α : Type} [DecidableEq α] {l₁ l₂ : List α}
    (h : l₁.Nodup) (hs : ∀ x ∈ l₁, x ∈ l₂) : l₁.length ≤ l₂.length := by
  have h1 : l₁.toFinset.card = l₁.length := List.toFinset_card_of_nodup h
  have h2 : l₁.toFinset ⊆ l₂.toFinset := by
    intro a ha
    rw [List.mem_toFinset] at ha ⊢
    exact hs a ha
  have h3 := Finset.card_le_card h2
  have h4 := List.toFinset_card_le l₂
  omega

theorem freshFuncPath_not_mem (paths : List String) (out schema name : String) :
    freshFuncPath paths out schema name ∉ paths := by
  unfold freshFuncPath
  by_cases hb : funcBasePath out schema name ∈ paths
  · rw [if_pos hb]
    cases hf : ((List.range (paths.length + 1)).map
        (fun k => funcSuffixPath out schema name (k + 1))).find?
        (fun p => !paths.contains p) with
    | some p =>
      have hp := List.find?_some hf
      simpa using hp
    | none =>
      exfalso
      have hall := List.find?_eq_none.mp hf
      have hmem : ∀ x ∈ (List.range (paths.length + 1)).map
          (fun k => funcSuffixPath out schema name (k + 1)), x ∈ paths := by
        intro x hx
        have hpx := hall x hx
        simpa using hpx
      have hinj : Function.Injective
          (fun k => funcSuffixPath out schema name (k + 1)) := by
        intro a b hab
        have := funcSuffixPath_injective out schema name hab
        omega
      have hnd : ((List.range (paths.length + 1)).map
          (fun k => funcSuffixPath out schema name (k + 1))).Nodup :=
        (List.nodup_range _).map hinj
      have hle := nodup_subset_length hnd hmem
      simp at hle
  · rw [if_neg hb]
    exact hb

theorem freshFuncPath_of_fresh (paths : List String) (out schema name : String)
    (h : funcBasePath out schema name ∉ paths) :
    freshFuncPath paths out schema name = funcBasePath out schema name := by
  unfold freshFuncPath
  rw [if_neg h]

theorem freshFuncPath_shape (paths : List String) (out schema name : String) :
    ∃ r : String, freshFuncPath paths out schema name =
      out ++ "/" ++ (schema ++ "/" ++ r) := by
  unfold freshFuncPath
  by_cases hb : funcBasePath out schema name ∈ paths
  · rw [if_pos hb]
    cases hf : ((List.range (paths.length + 1)).map
        (fun k => funcSuffixPath out schema name (k + 1))).find?
        (fun p => !paths.contains p) with
    | some p =>
      have hpmem := List.mem_of_find?_eq_some hf
      obtain ⟨k, _, rfl⟩ := List.mem_map.mp hpmem
      exact ⟨"functions/" ++ (name ++ "_" ++ natToString (k + 1) ++ ".sql"), rfl⟩
    | none => exact ⟨"functions/" ++ (name ++ ".sql"), rfl⟩
  · rw [if_neg hb]
    exact ⟨"functions/" ++ (name ++ ".sql"), rfl⟩

theorem slash_data (a b : String) : (a ++ "/" ++ b).data = a.data ++ '/' :: b.data := by
  have h : ("/" : String).data = ['/'] := rfl
  simp [String.data_append, h]

theorem shape_ne {out s₁ s₂ r₁ r₂ : String} (h1 : '/' ∉ s₁.data)
    (h2 : '/' ∉ s₂.data) (hne : s₁ ≠ s₂) :
    out ++ "/" ++ (s₁ ++ "/" ++ r₁) ≠ out ++ "/" ++ (s₂ ++ "/" ++ r₂) := by
  intro h
  have h' := str_append_left_cancel h
  have hd := congrArg String.data h'
  rw [slash_data, slash_data] at hd
  exact hne (String.ext (sepFree_append_inj h1 h2 hd).1)

theorem tableFilePath_injective (out schema : String) :
    Function.Injective (tableFilePath out schema) := by
  intro a b h
  unfold tableFilePath at h
  have h1 := str_append_left_cancel h
  have h2 := str_append_left_cancel h1
  have h3 := str_append_left_cancel h2
  exact str_append_right_cancel h3

theorem funcFold_nodup (out schema : String) :
    ∀ (fnames : List String) (fs : List ExportFile),
      (fs.map ExportFile.filePath).Nodup →
      ((fnames.foldl (fun fs fname =>
          fs ++ [{ schema := schema, name := fname, isTable := false,
                   filePath := freshFuncPath (fs.map ExportFile.filePath) out schema fname }])
        fs).map ExportFile.filePath).Nodup := by
  intro fnames
  induction fnames with
  | nil => intro fs h; simpa using h
  | cons f fns ih =>
    intro fs h
    simp only [List.foldl_cons]
    apply ih
    rw [List.map_append, List.nodup_append]
    refine ⟨h, List.nodup_singleton _, ?_⟩
    intro a ha ha'
    simp only [List.map_cons, List.map_nil, List.mem_singleton] at ha'
    subst ha'
    exact freshFuncPath_not_mem _ out schema f ha

theorem funcFold_paths (out schema : String) :
    ∀ (fnames : List String) (fs : List ExportFile) (p : String),
      p ∈ ((fnames.foldl (fun fs fname =>
          fs ++ [{ schema := schema, name := fname, isTable := false,
                   filePath := freshFuncPath (fs.map ExportFile.filePath) out schema fname }])
        fs).map ExportFile.filePath) →
      p ∈ fs.map ExportFile.filePath ∨
        ∃ r : String, p = out ++ "/" ++ (schema ++ "/" ++ r) := by
  intro fnames
  induction fnames with
  | nil => intro fs p hp; exact Or.inl (by simpa using hp)
  | cons f fns ih =>
    intro fs p hp
    simp only [List.foldl_cons] at hp
    rcases ih _ p hp with h | h
    · rw [List.map_append] at h
      rcases List.mem_append.mp h with h | h
      · exact Or.inl h
      · simp only [List.map_cons, List.map_nil, List.mem_singleton] at h
        subst h
        rcases freshFuncPath_shape (fs.map ExportFile.filePath) out schema f with ⟨r, hr⟩
        exact Or.inr ⟨r, hr⟩
    · exact Or.inr h

theorem exportSchema_paths (out : String) (fs : List ExportFile) (sd : SchemaData) :
    ∀ p ∈ (exportSchema out fs sd).map ExportFile.filePath,
      p ∈ fs.map ExportFile.filePath ∨
        ∃ r : String, p = out ++ "/" ++ (sd.schema ++ "/" ++ r) := by
  intro p hp
  unfold exportSchema at hp
  rcases funcFold_paths out sd.schema sd.functions _ p hp with h | h
  · rw [List.map_append] at h
    rcases List.mem_append.mp h with h | h
    · exact Or.inl h
    · rw [List.map_map] at h
      obtain ⟨t, _, rfl⟩ := List.mem_map.mp h
      exact Or.inr ⟨"tables/" ++ (t ++ ".sql"), rfl⟩
  · exact Or.inr h

theorem exportSchema_nodup (out : String) (fs : List ExportFile) (sd : SchemaData)
    (hnd : (fs.map ExportFile.filePath).Nodup)
    (hold : ∀ p ∈ fs.map ExportFile.filePath, ∃ s, '/' ∉ s.data ∧ s ≠ sd.schema ∧
      ∃ r : String, p = out ++ "/" ++ (s ++ "/" ++ r))
    (hsfree : '/' ∉ sd.schema.data) (htnd : sd.tables.Nodup) :
    ((exportSchema out fs sd).map ExportFile.filePath).Nodup := by
  unfold exportSchema
  apply funcFold_nodup
  rw [List.map_append, List.nodup_append]
  refine ⟨hnd, ?_, ?_⟩
  · rw [List.map_map]
    exact htnd.map (fun a b h => tableFilePath_injective out sd.schema h)
  · intro p hp hp'
    rw [List.map_map] at hp'
    obtain ⟨t, _, hpt⟩ := List.mem_map.mp hp'
    obtain ⟨s, hsf, hsne, r, hpr⟩ := hold p hp
    rw [← hpt] at hpr
    have hpr' : out ++ "/" ++ (sd.schema ++ "/" ++ ("tables/" ++ (t ++ ".sql"))) =
        out ++ "/" ++ (s ++ "/" ++ r) := hpr
    exact shape_ne hsfree hsf (fun he => hsne he.symm) hpr'

theorem exportFiles_fold_nodup (out : String) :
    ∀ (sds : List SchemaData) (fs : List ExportFile) (done : List String),
      (∀ s ∈ done, '/' ∉ s.data) →
      (∀ sd ∈ sds, sd.schema ∉ done) →
      ((sds.map SchemaData.schema).Nodup) →
      (∀ sd ∈ sds, '/' ∉ sd.schema.data ∧ sd.tables.Nodup) →
      ((fs.map ExportFile.filePath).Nodup) →
      (∀ p ∈ fs.map ExportFile.filePath, ∃ s ∈ done, ∃ r : String,
        p = out ++ "/" ++ (s ++ "/" ++ r)) →
      ((sds.foldl (exportSchema out) fs).map ExportFile.filePath).Nodup := by
  intro sds
  induction sds with
  | nil =>
    intro fs done _ _ _ _ h _
    simpa using h
  | cons sd rest ih =>
    intro fs done hdone hnin hnd hfree hfnd hfstruct
    simp only [List.foldl_cons]
    have hsfree := (hfree sd (List.mem_cons_self _ _)).1
    have htnd := (hfree sd (List.mem_cons_self _ _)).2
    have hold : ∀ p ∈ fs.map ExportFile.filePath, ∃ s, '/' ∉ s.data ∧
        s ≠ sd.schema ∧ ∃ r : String, p = out ++ "/" ++ (s ++ "/" ++ r) := by
      intro p hp
      obtain ⟨s, hsdone, r, hpr⟩ := hfstruct p hp
      refine ⟨s, hdone s hsdone, ?_, r, hpr⟩
      intro he
      exact hnin sd (List.mem_cons_self _ _) (he ▸ hsdone)
    apply ih (exportSchema out fs sd) (sd.schema :: done)
    · intro s hs
      rcases List.mem_cons.mp hs with rfl | hs
      · exact hsfree
      · exact hdone s hs
    · intro sd' hsd' hin
      rcases List.mem_cons.mp hin with he | hin
      · have hmap : sd'.schema ∈ rest.map SchemaData.schema :=
          List.mem_map_of_mem _ hsd'
        rw [he] at hmap
        exact (List.nodup_cons.mp hnd).1 hmap
      · exact hnin sd' (List.mem_cons_of_mem _ hsd') hin
    · exact (List.nodup_cons.mp hnd).2
    · intro sd' hsd'
      exact hfree sd' (List.mem_cons_of_mem _ hsd')
    · exact exportSchema_nodup out fs sd hfnd hold hsfree htnd
    · intro p hp
      rcases exportSchema_paths out fs sd p hp with h | ⟨r, hr⟩
      · obtain ⟨s, hsdone, r, hpr⟩ := hfstruct p h
        exact ⟨s, List.mem_cons_of_mem _ hsdone, r, hpr⟩
      · exact ⟨sd.schema, List.mem_cons_self _ _, r, hr⟩

/-- Claim C9 counterexample: table files are written without any collision
check, so configuring the same schema twice records the same table file path
twice in `ExportResult.files`, refuting pairwise distinctness. -/
theorem exportFiles_dup_schema_counterexample :
    ¬ ((exportFiles "./tables" [⟨"a", ["t"], []⟩, ⟨"a", ["t"], []⟩]).map
        ExportFile.filePath).Nodup := by
  decide

/-- Claim C9 (amended): function file paths are always kept fresh by the
`_1, _2, …` suffix loop (`freshFuncPath` never returns a recorded path, and
returns the unsuffixed name when it is free); and provided the configured
schema list has no duplicates, every schema name is a single ordinary path
segment (no `/`, not `""`, `"."` or `".."`), table and function names contain
no path separator, and each schema's table names are distinct, all recorded
file paths are pairwise distinct.  The segment conditions are exactly those
under which the `/`-concatenation model of `path.join` is exact (they forbid
names such as `"../../b/tables/t"` that `path.join` would normalize into
another schema's unchecked table path), so the conclusion transfers to the
source program only on inputs satisfying them. -/
theorem exportFiles_paths_nodup (out : String) (sds : List SchemaData)
    (hnd : (sds.map SchemaData.schema).Nodup)
    (hfree : ∀ sd ∈ sds,
      ('/' ∉ sd.schema.data ∧ sd.schema ≠ "" ∧ sd.schema ≠ "." ∧
        sd.schema ≠ "..") ∧ sd.tables.Nodup ∧
      (∀ t ∈ sd.tables, '/' ∉ t.data) ∧
      (∀ f ∈ sd.functions, '/' ∉ f.data)) :
    ((exportFiles out sds).map ExportFile.filePath).Nodup ∧
    (∀ (paths : List String) (schema fname : String),
      freshFuncPath paths out schema fname ∉ paths) ∧
    (∀ (paths : List String) (schema fname : String),
      funcBasePath out schema fname ∉ paths →
        freshFuncPath paths out schema fname = funcBasePath out schema fname) := by
  refine ⟨?_, fun paths s n => freshFuncPath_not_mem paths out s n,
    fun paths s n h => freshFuncPath_of_fresh paths out s n h⟩
  unfold exportFiles
  apply exportFiles_fold_nodup out sds [] []
  · intro s hs
    cases hs
  · intro sd _ hin
    cases hin
  · exact hnd
  · intro sd hsd
    exact ⟨(hfree sd hsd).1.1, (hfree sd hsd).2.1⟩
  · exact List.nodup_nil
  · intro p hp
    cases hp

/-- Witness for `exportFiles_paths_nodup` at a concrete input with an
overloaded function. -/
theorem exportFiles_paths_nodup_witness :
    ((exportFiles "./tables"
        [⟨"a", ["t1", "t2"], ["f", "f"]⟩, ⟨"b", ["t1"], []⟩]).map
      ExportFile.filePath).Nodup :=
  (exportFiles_paths_nodup "./tables"
    [⟨"a", ["t1", "t2"], ["f", "f"]⟩, ⟨"b", ["t1"], []⟩]
    (by decide) (by decide)).1

end Tablerizer
